import Mathlib

/-! # Verification development for `pkg/spire`

A shallow embedding of `pkg/spire/spire_mock.go` (the mock SPIRE client:
`mockSign`, `mockVerify`, `Sign`, `VerifyTaskRunResults`,
`AppendStatusInternalAnnotation`, `VerifyStatusInternalAnnotation`) and of
`getxsvid` from `pkg/spire/entrypointer.go`.

Conventions of the embedding:

* a Go `string` is a `String`; a Go `error` is an `Option String` holding the
  message (`none` is `nil`); a Go `(T, error)` result is an `Except String T`
  where the source returns `nil` beside the error;
* a Go `map[string]β` is an association list with distinct keys (`GoMap β`);
  the order in which `range` walks a map is unspecified in Go and is an explicit
  parameter (`MapRange`);
* `crypto/sha256` is an external library: the digest function `Sum256` is a
  parameter of every definition that hashes, and every theorem holds for all
  digest functions;
* receivers that are mutated (`sc.SignIdentities`, `tr.Status.Annotations`) are
  returned as the new state.
-/

namespace Spire

/-! ## Go maps -/

/-- A Go `map[string]β`: an association list whose keys are kept distinct by `set`. -/
abbrev GoMap (β : Type) := List (String × β)

namespace GoMap

/-- The expression `v, ok := m[k]`. -/
def get? {β : Type} : GoMap β → String → Option β
  | [], _ => none
  | (k', v) :: rest, k => if k' = k then some v else get? rest k

/-- The statement `m[k] = v`. -/
def set {β : Type} : GoMap β → String → β → GoMap β
  | [], k, v => [(k, v)]
  | (k', v') :: rest, k, v => if k' = k then (k, v) :: rest else (k', v') :: set rest k v

/-- The keys of the map. -/
def keys {β : Type} (m : GoMap β) : List String := m.map Prod.fst

end GoMap

/-! ## Data model -/

/-- The type `v1beta1.ResultType`, declared outside the embedded files; the source only
compares its values with `TaskRunResultType`. -/
abbrev ResultType := Nat

/-- The constant `v1beta1.TaskRunResultType`. -/
def TaskRunResultType : ResultType := 1

/-- The struct `v1beta1.PipelineResourceResult`. -/
structure PipelineResourceResult where
  Key : String
  Value : String
  ResourceName : String := ""
  ResultType : ResultType
deriving DecidableEq, Repr

/-- The part of `v1beta1.TaskRun` the package reads and writes: the object's namespace and
name, the status fields that are hashed (`σ`), and `tr.Status.Annotations`, a map that may
be `nil`. -/
structure TaskRun (σ : Type) where
  Namespace : String
  Name : String
  StatusFields : σ
  Annotations : Option (GoMap String)

/-- The struct `SpireMockClient`. A function-valued hook that is `nil` is `none`. -/
structure SpireMockClient (σ : Type) where
  Entries : Option (GoMap Bool) := none
  SignIdentities : List String := []
  VerifyAlwaysReturns : Option Bool := none
  VerifyStatusInternalAnnotationOverride : Option (TaskRun σ → Option String) := none
  VerifyTaskRunResultsOverride :
    Option (List PipelineResourceResult → TaskRun σ → Option String) := none
  AppendStatusInternalAnnotationOverride : Option (TaskRun σ → Option String) := none
  CheckSpireVerifiedFlagOverride : Option (TaskRun σ → Bool) := none
  SignOverride :
    Option (List PipelineResourceResult → Except String (List PipelineResourceResult)) := none

/-- The order in which a `for ... range` statement visits the entries of a map: Go leaves it
unspecified, so it is any rearrangement of the entries. -/
structure MapRange where
  order : GoMap PipelineResourceResult → List (String × PipelineResourceResult)
  perm : ∀ m, (order m).Perm m

/-- The range order that visits the entries as they are stored. -/
def MapRange.stored : MapRange := ⟨fun m => m, fun m => List.Perm.refl m⟩

/-- The range order that visits the entries in reverse. -/
def MapRange.reversed : MapRange := ⟨fun m => m.reverse, fun m => List.reverse_perm m⟩

/-! ## Constants of the package

`KeySVID`, `KeySignatureSuffix`, `KeyResultManifest` and the four annotation keys are declared
in another file of the package. The spec names the slots without fixing their literals; the
theorems use only that the four annotation keys are pairwise distinct. -/

/-- Modelled from the spec: the constant `KeySVID`, declared outside the embedded files: the
key of the field the spec calls `identity`. The spec does not fix the literal; the theorems
use of it only that it differs from the manifest key. -/
def KeySVID : String := "SVID"

/-- Modelled from the spec: the constant `KeySignatureSuffix` (declared outside the embedded
files), the suffix of a signature field's key, as in `<key>.sig`. -/
def KeySignatureSuffix : String := ".sig"

/-- Modelled from the spec: the constant `KeyResultManifest`, declared outside the embedded
files: the key of the field the spec calls `manifest`. The spec does not fix the literal; the
theorems use of it only that it is not the identity key and has no signature suffix. -/
def KeyResultManifest : String := "RESULT_MANIFEST"

/-- Modelled from the spec: the constant `controllerSvidAnnotation` (declared outside the
embedded files), the owner-marker slot. -/
def controllerSvidAnnotation : String := "tekton.dev/controller-svid"

/-- Modelled from the spec: the constant `TaskRunStatusHashAnnotation` (declared outside the
embedded files), the status-hash slot. -/
def TaskRunStatusHashAnnotation : String := "tekton.dev/status-hash"

/-- Modelled from the spec: the constant `taskRunStatusHashSigAnnotation` (declared outside
the embedded files), the slot of the signature over the status hash. -/
def taskRunStatusHashSigAnnotation : String := "tekton.dev/status-hash-sig"

/-- Modelled from the spec: the constant `NotVerifiedAnnotation` (declared outside the
embedded files), the presence-only not-verified marker. -/
def NotVerifiedAnnotation : String := "tekton.dev/not-verified"

/-- The constant `controllerSvid`. -/
def controllerSvid : String := "CONTROLLER_SVID_DATA"

/-- The call `strings.HasSuffix(s, suffix)`. -/
def HasSuffix (s suffix : String) : Bool := suffix.data.isSuffixOf s.data

/-! ## The mock signature -/

/-- The value of `sha256.Sum256`: an array of 32 bytes. -/
abbrev Digest := Fin 32 → Fin 256

/-- The verb `%x` applied to a `[32]byte`: two lower-case hexadecimal digits per byte. -/
def hexDigest (d : Digest) : String :=
  ⟨(List.ofFn d).flatMap fun b => [Nat.digitChar (b.val / 16), Nat.digitChar (b.val % 16)]⟩

/-- The method `mockSign`:
`fmt.Sprintf("signed-by-%s:%x", signedBy, sha256.Sum256([]byte(content)))`. -/
def mockSign (Sum256 : String → Digest) (content signedBy : String) : String :=
  "signed-by-" ++ signedBy ++ ":" ++ hexDigest (Sum256 content)

/-- The method `mockVerify`. -/
def mockVerify (Sum256 : String → Digest) (content sig signedBy : String) : Bool :=
  decide (sig = mockSign Sum256 content signedBy)

/-- The method `GetIdentity`: `fmt.Sprintf("/ns/%v/taskrun/%v", tr.Namespace, tr.Name)`. -/
def GetIdentity {σ : Type} (tr : TaskRun σ) : String :=
  "/ns/" ++ tr.Namespace ++ "/taskrun/" ++ tr.Name

/-! ## The manifest -/

/-- Modelled from the spec: the kind of a field is not stored in the Go struct, it is read
off the key. A key names a plain result when it is not a signature key (`<key>.sig`), not
the identity key and not the manifest key. -/
def isPlainKey (k : String) : Bool :=
  !HasSuffix k KeySignatureSuffix && decide (k ≠ KeySVID) && decide (k ≠ KeyResultManifest)

/-- The byte-wise lexicographic order of `sort.Strings`. -/
def strLE (a b : String) : Prop := a.data ≤ b.data

instance strLE.decidableRel : DecidableRel strLE :=
  fun a b => inferInstanceAs (Decidable (a.data ≤ b.data))

/-- Modelled from the spec: `manifest = join(sorted(plainResultKeys))`. The spec does not fix
the separator; a comma is used, and no theorem below depends on that choice. -/
def manifestOfKeys (keys : List String) : String :=
  String.intercalate "," (List.insertionSort strLE keys)

/-- Modelled from the spec: the function `getManifest` of the package, which is outside the
embedded files. The spec: the manifest lists all plain-result keys of the signed
input, sorted and joined. -/
def getManifest (results : List PipelineResourceResult) : String :=
  manifestOfKeys
    ((results.filter fun r => decide (r.ResultType = TaskRunResultType) && isPlainKey r.Key).map
      fun r => r.Key)

/-- Modelled from the spec: the function `verifyManifest` of the package, which is outside
the embedded files. The spec, step 1 of the verifier: reconstruct the manifest
from all declared plain-result keys in the field set and fail with `ManifestMismatch` if it
disagrees with the stored manifest field. (The manifest's own signature is checked by the
field loop of `VerifyTaskRunResults`, which does not skip the manifest key.) -/
def verifyManifest (results : GoMap PipelineResourceResult) : Option String :=
  match results.get? KeyResultManifest with
  | none => some "ManifestMismatch"
  | some manifest =>
    if manifest.Value = manifestOfKeys (results.keys.filter isPlainKey) then none
    else some "ManifestMismatch"

/-! ## Signing and verifying task-run results -/

/-- The step of the first loop of `VerifyTaskRunResults` on one element of `prs`. -/
def resultMapStep (m : GoMap PipelineResourceResult) (r : PipelineResourceResult) :
    GoMap PipelineResourceResult :=
  if r.ResultType = TaskRunResultType then m.set r.Key r else m

/-- The first loop of `VerifyTaskRunResults`: the map of the `TaskRunResultType` entries of
`prs` by key, a later entry replacing an earlier one with the same key. -/
def buildResultMap (prs : List PipelineResourceResult) : GoMap PipelineResourceResult :=
  prs.foldl resultMapStep []

/-- The last loop of `VerifyTaskRunResults`, over the entries in the order the `range`
statement visits them: the first visited key whose check fails, if any. -/
def verifyFields (Sum256 : String → Digest) (resultMap : GoMap PipelineResourceResult)
    (identity : String) : List (String × PipelineResourceResult) → Option String
  | [] => none
  | (key, r) :: rest =>
    if HasSuffix key KeySignatureSuffix then verifyFields Sum256 resultMap identity rest
    else if key = KeySVID then verifyFields Sum256 resultMap identity rest
    else
      match resultMap.get? (key ++ KeySignatureSuffix) with
      | none => some ("failed to verify field: " ++ key)
      | some sigEntry =>
        if mockVerify Sum256 r.Value sigEntry.Value identity then
          verifyFields Sum256 resultMap identity rest
        else some ("failed to verify field: " ++ key)

/-- The check the last loop of `VerifyTaskRunResults` makes on one entry: the entry is
skipped (signature key or identity key), or its signature entry is present and verifies. -/
def fieldPasses (Sum256 : String → Digest) (resultMap : GoMap PipelineResourceResult)
    (identity : String) (entry : String × PipelineResourceResult) : Bool :=
  HasSuffix entry.1 KeySignatureSuffix || decide (entry.1 = KeySVID) ||
    match resultMap.get? (entry.1 ++ KeySignatureSuffix) with
    | none => false
    | some sigEntry => mockVerify Sum256 entry.2.Value sigEntry.Value identity

/-- The method `VerifyTaskRunResults`. The loop that reads the identity walks the map until
it meets the key `KeySVID`; a map holds a key at most once, so it is the lookup of that key,
and `identity` stays the empty string when the key is absent. -/
def VerifyTaskRunResults {σ : Type} (Sum256 : String → Digest) (range : MapRange)
    (sc : SpireMockClient σ) (prs : List PipelineResourceResult) (tr : TaskRun σ) :
    Option String :=
  match sc.VerifyTaskRunResultsOverride with
  | some f => f prs tr
  | none =>
    match sc.VerifyAlwaysReturns with
    | some true => none
    | some false => some "failed to verify from mock VerifyAlwaysReturns"
    | none =>
      let resultMap := buildResultMap prs
      let identity := match resultMap.get? KeySVID with
        | some p => p.Value
        | none => ""
      match verifyManifest resultMap with
      | some err => some err
      | none =>
        if identity ≠ GetIdentity tr then some "mock identity did not match"
        else verifyFields Sum256 resultMap identity (range.order resultMap)

/-- A tampering with a field set: the value of every `TaskRunResultType` field with key `k`
is replaced by `v`. -/
def replaceValue (k v : String) (prs : List PipelineResourceResult) :
    List PipelineResourceResult :=
  prs.map fun r =>
    if r.ResultType = TaskRunResultType ∧ r.Key = k then { r with Value := v } else r

/-- The expression `sc.Entries[identity]`: reading a `nil` map or an absent key gives `false`. -/
def entryOf (entries : Option (GoMap Bool)) (identity : String) : Bool :=
  match entries with
  | none => false
  | some m => (m.get? identity).getD false

/-- The field `Sign` appends for one input result of type `TaskRunResultType`. -/
def sigField (Sum256 : String → Digest) (identity : String) (r : PipelineResourceResult) :
    PipelineResourceResult :=
  { Key := r.Key ++ KeySignatureSuffix, Value := mockSign Sum256 r.Value identity,
    ResultType := TaskRunResultType }

/-- The output `Sign` builds once the identity is chosen and registered (lines 239-270). -/
def signOutput (Sum256 : String → Digest) (identity : String)
    (results : List PipelineResourceResult) : List PipelineResourceResult :=
  let output : List PipelineResourceResult :=
    [{ Key := KeySVID, Value := identity, ResultType := TaskRunResultType }]
  let output := results.foldl
    (fun out r =>
      if r.ResultType = TaskRunResultType then out ++ [sigField Sum256 identity r] else out)
    output
  let manifest := getManifest results
  let output := output ++
    [{ Key := KeyResultManifest, Value := manifest, ResultType := TaskRunResultType }]
  let manifestSig := mockSign Sum256 manifest identity
  output ++ [{ Key := KeyResultManifest ++ KeySignatureSuffix, Value := manifestSig,
               ResultType := TaskRunResultType }]

/-- The method `Sign`: the returned pair and the client after the call (the identity queue
is popped before the entry is looked up). A `nil` and an empty `SignIdentities` slice are
both `[]`: the source only reads its length. -/
def Sign {σ : Type} (Sum256 : String → Digest) (sc : SpireMockClient σ)
    (results : List PipelineResourceResult) :
    Except String (List PipelineResourceResult) × SpireMockClient σ :=
  match sc.SignOverride with
  | some f => (f results, sc)
  | none =>
    match sc.SignIdentities with
    | [] =>
      (.error ("signIdentities empty, please provide identities to sign with the " ++
        "SpireMockClient.GetIdentity function"), sc)
    | identity :: rest =>
      let sc' := { sc with SignIdentities := rest }
      if entryOf sc.Entries identity = false then
        (.error ("entry doesn't exist for identity: " ++ identity), sc')
      else (.ok (signOutput Sum256 identity results), sc')

/-! ## The status chain -/

/-- The expression `tr.Status.Annotations` read as a map: a `nil` map reads as an empty one. -/
def annotationsOf {σ : Type} (tr : TaskRun σ) : GoMap String := tr.Annotations.getD []

/-- Modelled from the spec: the function `hashTaskrunStatusInternal` of the package, which is
outside the embedded files. The spec: the deterministic hash of the status-relevant portion
of the task record; the three annotation slots are associated with that record and are not
part of what is hashed. The hash of the status fields, `hashStatus`, is a parameter; it may
fail, as the Go signature returns an error. -/
def hashTaskrunStatusInternal {σ : Type} (hashStatus : σ → Except String String)
    (tr : TaskRun σ) : Except String String :=
  hashStatus tr.StatusFields

/-- Modelled from the spec: the function `CheckStatusInternalAnnotation` of the package,
which is outside the embedded files. The spec, step 4 of the status chain: fail with
`StatusHashMismatch` if the recomputed hash differs from the hash stored in the status-hash
slot. -/
def CheckStatusInternalAnnotation {σ : Type} (hashStatus : σ → Except String String)
    (tr : TaskRun σ) : Option String :=
  match hashTaskrunStatusInternal hashStatus tr with
  | .error err => some err
  | .ok current =>
    if (annotationsOf tr).get? TaskRunStatusHashAnnotation = some current then none
    else some "StatusHashMismatch"

/-- The method `AppendStatusInternalAnnotation`: the returned error and the task run after
the call. The source consults no field of the client here. -/
def AppendStatusInternalAnnotation {σ : Type} (Sum256 : String → Digest)
    (hashStatus : σ → Except String String) (_sc : SpireMockClient σ) (tr : TaskRun σ) :
    Option String × TaskRun σ :=
  match hashTaskrunStatusInternal hashStatus tr with
  | .error err => (some err, tr)
  | .ok currentHash =>
    let annotations : GoMap String := match tr.Annotations with
      | none => []
      | some m => m
    let annotations := annotations.set controllerSvidAnnotation controllerSvid
    let annotations := annotations.set TaskRunStatusHashAnnotation currentHash
    let annotations := annotations.set taskRunStatusHashSigAnnotation
      (mockSign Sum256 currentHash "controller")
    (none, { tr with Annotations := some annotations })

/-- The method `CheckSpireVerifiedFlag`. -/
def CheckSpireVerifiedFlag {σ : Type} (sc : SpireMockClient σ) (tr : TaskRun σ) : Bool :=
  match sc.CheckSpireVerifiedFlagOverride with
  | some f => f tr
  | none =>
    match (annotationsOf tr).get? NotVerifiedAnnotation with
    | none => true
    | some _ => false

/-- The method `VerifyStatusInternalAnnotation`. An index expression `annotations[k]` reads
the empty string for an absent key. -/
def VerifyStatusInternalAnnotation {σ : Type} (Sum256 : String → Digest)
    (hashStatus : σ → Except String String) (sc : SpireMockClient σ) (tr : TaskRun σ) :
    Option String :=
  match sc.VerifyStatusInternalAnnotationOverride with
  | some f => f tr
  | none =>
    match sc.VerifyAlwaysReturns with
    | some true => none
    | some false => some "failed to verify from mock VerifyAlwaysReturns"
    | none =>
      if !CheckSpireVerifiedFlag sc tr then
        some "annotation tekton.dev/not-verified = yes. Failed spire verification."
      else
        let annotations := annotationsOf tr
        if (annotations.get? controllerSvidAnnotation).getD "" ≠ controllerSvid then
          some "svid annotation missing"
        else
          match hashTaskrunStatusInternal hashStatus tr with
          | .error err => some err
          | .ok currentHash =>
            if !mockVerify Sum256 currentHash
                ((annotations.get? taskRunStatusHashSigAnnotation).getD "") "controller" then
              some "signature was not able to be verified"
            else
              match CheckStatusInternalAnnotation hashStatus tr with
              | some err => some err
              | none => none

/-! ## Fetching the credential (`entrypointer.go`) -/

/-- The part of `x509svid.SVID` that `getxsvid` reads: the certificate chain. -/
structure SVID where
  Certificates : List String
deriving DecidableEq, Repr

/-- What one call of `w.client.FetchX509SVID(ctx)` returns: a credential pointer that may be
`nil` and an error that may be `nil`. The field `w.client` is the concrete
`*workloadapi.Client` (lines 53-56), an external library; what it guarantees about the pair
is stated as a hypothesis where a theorem needs it. -/
abbrev FetchResult := Option SVID × Option String

/-- The variables of `getxsvid` after the loop, with the number of fetch attempts made and
the delays slept, in seconds, in order. -/
structure FetchState where
  xsvid : Option SVID
  err : Option String
  attempts : Nat
  sleeps : List Nat
deriving DecidableEq, Repr

/-- The local variable `backOff` of `getxsvid`: set to 2 and never assigned again. -/
def backOff : Nat := 2

/-- The loop `for i := 0; i < 20; i += backOff` of `getxsvid`, from the value `i` of the loop
variable on; `fetch n` is the response to the call number `n` (from 0) of the endpoint. -/
def fetchLoop (fetch : Nat → FetchResult) (i : Nat) (st : FetchState) : FetchState :=
  if i < 20 then
    let (xsvid, err) := fetch st.attempts
    let st := { st with xsvid := xsvid, err := err, attempts := st.attempts + 1 }
    if err = none then st
    else fetchLoop fetch (i + backOff) { st with sleeps := st.sleeps ++ [backOff] }
  else st
termination_by 20 - i
decreasing_by simp [backOff]; omega

/-- The function `errors.Wrap` of `github.com/pkg/errors`: `nil` for a `nil` error, else the
error annotated with the message. -/
def Wrap (err : Option String) (message : String) : Option String :=
  err.map fun e => message ++ ": " ++ e

/-- The method `getxsvid`: the returned credential, the returned error, and the state after
the loop (attempts made and delays slept). -/
def getxsvid (fetch : Nat → FetchResult) : Option SVID × Option String × FetchState :=
  let st := fetchLoop fetch 0 { xsvid := none, err := none, attempts := 0, sleeps := [] }
  match st.xsvid with
  | some xsvid =>
    if xsvid.Certificates.length > 0 then (some xsvid, none, st)
    else (none, Wrap st.err "requested SVID failed to get fetched and timed out", st)
  | none => (none, Wrap st.err "requested SVID failed to get fetched and timed out", st)

/-! ## Registration entries -/

/-- The method `CreateEntries`: the returned error and the client after the call. The pod
and the time to live are not read by the source. -/
def CreateEntries {σ : Type} (sc : SpireMockClient σ) (tr : TaskRun σ) :
    Option String × SpireMockClient σ :=
  let id := "/ns/" ++ tr.Namespace ++ "/taskrun/" ++ tr.Name
  let entries : GoMap Bool := match sc.Entries with
    | none => []
    | some m => m
  (none, { sc with Entries := some (entries.set id true) })

/-! ## Examples used for concrete runs -/

/-- A digest function for evaluating examples: a one-byte rolling checksum of the content,
spread over the 32 bytes. It stands in for SHA-256 only where a concrete run is shown. -/
def checksumDigest (content : String) : Digest :=
  fun i => ⟨(content.data.foldl (fun acc c => (33 * acc + c.toNat) % 256) 7 + i.val) % 256,
    Nat.mod_lt _ (by decide)⟩

/-- A status hash for evaluating examples: the hexadecimal checksum of the status text. -/
def checksumStatus (status : String) : Except String String :=
  .ok (hexDigest (checksumDigest status))

/-- A task run used in examples. -/
def exampleTaskRun : TaskRun String :=
  { Namespace := "default", Name := "build", StatusFields := "Succeeded", Annotations := none }

/-- A mock client used in examples: the example task run is registered and is next to sign. -/
def exampleClient : SpireMockClient String :=
  { Entries := some [("/ns/default/taskrun/build", true)],
    SignIdentities := ["/ns/default/taskrun/build"] }

/-- Two plain results used in examples. -/
def exampleResults : List PipelineResourceResult :=
  [{ Key := "foo", Value := "1", ResultType := TaskRunResultType },
   { Key := "bar", Value := "2", ResultType := TaskRunResultType }]

/-- A task run whose namespace contains a slash, used in examples. -/
def slashNamespaceTaskRun : TaskRun String :=
  { Namespace := "a/taskrun/b", Name := "c", StatusFields := "Succeeded", Annotations := none }

/-- A task run whose name contains a slash, used in examples. -/
def slashNameTaskRun : TaskRun String :=
  { Namespace := "a", Name := "b/taskrun/c", StatusFields := "Succeeded", Annotations := none }

set_option maxRecDepth 100000

/-! ## Lemmas on Go maps and strings -/

theorem GoMap.get?_set_self {β : Type} (k : String) (v : β) :
    ∀ m : GoMap β, (m.set k v).get? k = some v
  | [] => by simp [GoMap.set, GoMap.get?]
  | (k', v') :: rest => by
    by_cases h : k' = k
    · simp [GoMap.set, GoMap.get?, h]
    · simp [GoMap.set, GoMap.get?, h, GoMap.get?_set_self k v rest]

theorem GoMap.get?_set_ne {β : Type} (k k0 : String) (v : β) (hne : k0 ≠ k) :
    ∀ m : GoMap β, (m.set k v).get? k0 = m.get? k0
  | [] => by
    have h : ¬ k = k0 := fun h => hne h.symm
    simp [GoMap.set, GoMap.get?, h]
  | (k', v') :: rest => by
    by_cases h : k' = k
    · subst h
      have h0 : ¬ k' = k0 := fun h => hne h.symm
      simp [GoMap.set, GoMap.get?, h0]
    · by_cases h0 : k' = k0
      · subst h0
        simp [GoMap.set, GoMap.get?, h]
      · simp [GoMap.set, GoMap.get?, h, h0, GoMap.get?_set_ne k k0 v hne rest]

theorem str_append_left_cancel {a b c : String} (h : a ++ b = a ++ c) : b = c := by
  have hd := congrArg String.data h
  simp only [String.data_append] at hd
  exact String.ext (List.append_cancel_left hd)

theorem str_append_right_cancel {a b c : String} (h : a ++ c = b ++ c) : a = b := by
  have hd := congrArg String.data h
  simp only [String.data_append] at hd
  exact String.ext (List.append_cancel_right hd)

theorem digitChar_inj16 :
    ∀ a b : Fin 16, Nat.digitChar a.val = Nat.digitChar b.val → a = b := by
  decide

theorem hexByte_inj (a b : Fin 256)
    (h1 : Nat.digitChar (a.val / 16) = Nat.digitChar (b.val / 16))
    (h2 : Nat.digitChar (a.val % 16) = Nat.digitChar (b.val % 16)) : a = b := by
  have ha : a.val / 16 < 16 := by omega
  have hb : b.val / 16 < 16 := by omega
  have e1 := digitChar_inj16 ⟨a.val / 16, ha⟩ ⟨b.val / 16, hb⟩ h1
  have e2 := digitChar_inj16 ⟨a.val % 16, Nat.mod_lt _ (by decide)⟩
    ⟨b.val % 16, Nat.mod_lt _ (by decide)⟩ h2
  simp only [Fin.mk.injEq] at e1 e2
  apply Fin.ext
  omega

theorem hexBytes_inj : ∀ l1 l2 : List (Fin 256),
    (l1.flatMap fun b => [Nat.digitChar (b.val / 16), Nat.digitChar (b.val % 16)]) =
    (l2.flatMap fun b => [Nat.digitChar (b.val / 16), Nat.digitChar (b.val % 16)]) → l1 = l2
  | [], [] => fun _ => rfl
  | [], _ :: _ => fun h => by simp at h
  | _ :: _, [] => fun h => by simp at h
  | a :: l1, b :: l2 => fun h => by
    simp only [List.flatMap_cons, List.cons_append, List.nil_append, List.cons.injEq] at h
    obtain ⟨h1, h2, h3⟩ := h
    rw [hexByte_inj a b h1 h2, hexBytes_inj l1 l2 h3]

/-- The hexadecimal rendering of a digest determines the digest. -/
theorem hexDigest_injective : Function.Injective hexDigest := by
  intro d1 d2 h
  unfold hexDigest at h
  exact List.ofFn_injective (hexBytes_inj _ _ (congrArg String.data h))

/-- Two signatures by the same signer agree exactly when the digests of the contents agree. -/
theorem mockSign_eq_iff (Sum256 : String → Digest) (c1 c2 signedBy : String) :
    mockSign Sum256 c1 signedBy = mockSign Sum256 c2 signedBy ↔ Sum256 c1 = Sum256 c2 := by
  unfold mockSign
  constructor
  · intro h
    exact hexDigest_injective (str_append_left_cancel h)
  · intro h
    rw [h]

theorem mockVerify_mockSign (Sum256 : String → Digest) (c1 c2 signedBy : String) :
    mockVerify Sum256 c1 (mockSign Sum256 c2 signedBy) signedBy = true ↔
      Sum256 c1 = Sum256 c2 := by
  unfold mockVerify
  rw [decide_eq_true_iff, mockSign_eq_iff]
  exact eq_comm

/-! ## Lemmas on the signer -/

theorem foldl_append_sigs (g : PipelineResourceResult → PipelineResourceResult) :
    ∀ (results init : List PipelineResourceResult),
      results.foldl
        (fun out r => if r.ResultType = TaskRunResultType then out ++ [g r] else out) init =
      init ++ (results.filter fun r => decide (r.ResultType = TaskRunResultType)).map g
  | [], init => by simp
  | r :: rs, init => by
    by_cases h : r.ResultType = TaskRunResultType
    · simp [List.foldl_cons, h, foldl_append_sigs g rs]
    · simp [List.foldl_cons, h, foldl_append_sigs g rs]

theorem signOutput_eq (Sum256 : String → Digest) (identity : String)
    (results : List PipelineResourceResult) :
    signOutput Sum256 identity results =
      { Key := KeySVID, Value := identity, ResultType := TaskRunResultType } ::
        ((results.filter fun r => decide (r.ResultType = TaskRunResultType)).map
            (sigField Sum256 identity) ++
          [{ Key := KeyResultManifest, Value := getManifest results,
             ResultType := TaskRunResultType },
           { Key := KeyResultManifest ++ KeySignatureSuffix,
             Value := mockSign Sum256 (getManifest results) identity,
             ResultType := TaskRunResultType }]) := by
  simp [signOutput, foldl_append_sigs]

theorem Sign_registered {σ : Type} (Sum256 : String → Digest) (sc : SpireMockClient σ)
    (results : List PipelineResourceResult) (identity : String) (rest : List String)
    (hov : sc.SignOverride = none) (hq : sc.SignIdentities = identity :: rest)
    (hentry : entryOf sc.Entries identity = true) :
    Sign Sum256 sc results =
      (.ok (signOutput Sum256 identity results), { sc with SignIdentities := rest }) := by
  simp [Sign, hov, hq, hentry]

theorem Sign_unregistered {σ : Type} (Sum256 : String → Digest) (sc : SpireMockClient σ)
    (results : List PipelineResourceResult) (identity : String) (rest : List String)
    (hov : sc.SignOverride = none) (hq : sc.SignIdentities = identity :: rest)
    (hentry : entryOf sc.Entries identity = false) :
    Sign Sum256 sc results =
      (.error ("entry doesn't exist for identity: " ++ identity),
        { sc with SignIdentities := rest }) := by
  simp [Sign, hov, hq, hentry]

theorem entryOf_false_of_no_true_entry (entries : Option (GoMap Bool)) (identity : String)
    (h : ∀ m, entries = some m → m.get? identity ≠ some true) :
    entryOf entries identity = false := by
  cases entries with
  | none => rfl
  | some m =>
    have hm := h m rfl
    cases hg : m.get? identity with
    | none => simp [entryOf, hg]
    | some b =>
      cases b with
      | false => simp [entryOf, hg]
      | true => exact absurd hg hm

/-! ## Claims on the signer -/

/-- C4. With `SignOverride` nil and a non-empty identity queue whose head has no true entry
in `Entries` (a nil `Entries` map included), `Sign` returns no field set and the error
"entry doesn't exist for identity: <head>", whatever the input results are. -/
theorem Sign_unregistered_identity_fails {σ : Type} (Sum256 : String → Digest)
    (sc : SpireMockClient σ) (results : List PipelineResourceResult) (identity : String)
    (rest : List String) (hov : sc.SignOverride = none)
    (hq : sc.SignIdentities = identity :: rest)
    (hentry : ∀ m, sc.Entries = some m → m.get? identity ≠ some true) :
    (Sign Sum256 sc results).1 = .error ("entry doesn't exist for identity: " ++ identity) := by
  rw [Sign_unregistered Sum256 sc results identity rest hov hq
    (entryOf_false_of_no_true_entry _ _ hentry)]

/-- C4, at a concrete input: the queue holds an identity, `Entries` is nil. -/
theorem Sign_unregistered_identity_fails_witness :
    (Sign checksumDigest
        ({ SignIdentities := ["/ns/default/taskrun/build"] } : SpireMockClient String)
        exampleResults).1 =
      .error "entry doesn't exist for identity: /ns/default/taskrun/build" :=
  Sign_unregistered_identity_fails checksumDigest _ exampleResults
    "/ns/default/taskrun/build" [] rfl rfl (by intro m h; cases h)

/-- C9. With `SignOverride` nil, when `Sign` succeeds under the identity at the head of the
queue, its output is exactly: the identity field; one field `<key>.sig` with value
`mockSign(value, identity)` for each input result of type `TaskRunResultType`, in input
order, and none for the others; the manifest field with value `getManifest(results)`; the
manifest-signature field. Every output field has type `TaskRunResultType` and the output has
three fields more than the input has results of that type. -/
theorem Sign_output_shape {σ : Type} (Sum256 : String → Digest) (sc : SpireMockClient σ)
    (results out : List PipelineResourceResult) (identity : String) (rest : List String)
    (hov : sc.SignOverride = none) (hq : sc.SignIdentities = identity :: rest)
    (hok : (Sign Sum256 sc results).1 = .ok out) :
    out =
      { Key := KeySVID, Value := identity, ResultType := TaskRunResultType } ::
        ((results.filter fun r => decide (r.ResultType = TaskRunResultType)).map
            (fun r => ({ Key := r.Key ++ KeySignatureSuffix,
                         Value := mockSign Sum256 r.Value identity,
                         ResultType := TaskRunResultType } : PipelineResourceResult)) ++
          [{ Key := KeyResultManifest, Value := getManifest results,
             ResultType := TaskRunResultType },
           { Key := KeyResultManifest ++ KeySignatureSuffix,
             Value := mockSign Sum256 (getManifest results) identity,
             ResultType := TaskRunResultType }]) ∧
    (∀ r ∈ out, r.ResultType = TaskRunResultType) ∧
    out.length =
      (results.filter fun r => decide (r.ResultType = TaskRunResultType)).length + 3 := by
  have hout : out = signOutput Sum256 identity results := by
    cases hentry : entryOf sc.Entries identity with
    | false =>
      rw [Sign_unregistered Sum256 sc results identity rest hov hq hentry] at hok
      cases hok
    | true =>
      rw [Sign_registered Sum256 sc results identity rest hov hq hentry] at hok
      injection hok with hok
      exact hok.symm
  subst hout
  rw [signOutput_eq]
  refine ⟨rfl, ?_, ?_⟩
  · intro r hr
    simp only [List.mem_cons, List.mem_append, List.mem_map, List.mem_singleton,
      List.not_mem_nil, or_false] at hr
    rcases hr with rfl | ⟨a, _, rfl⟩ | rfl | rfl <;> rfl
  · simp

/-- C9, at a concrete input: two plain results signed by the registered example identity. -/
theorem Sign_output_shape_witness :
    signOutput checksumDigest "/ns/default/taskrun/build" exampleResults =
      { Key := KeySVID, Value := "/ns/default/taskrun/build",
        ResultType := TaskRunResultType } ::
        ((exampleResults.filter fun r => decide (r.ResultType = TaskRunResultType)).map
            (fun r => ({ Key := r.Key ++ KeySignatureSuffix,
                         Value := mockSign checksumDigest r.Value "/ns/default/taskrun/build",
                         ResultType := TaskRunResultType } : PipelineResourceResult)) ++
          [{ Key := KeyResultManifest, Value := getManifest exampleResults,
             ResultType := TaskRunResultType },
           { Key := KeyResultManifest ++ KeySignatureSuffix,
             Value := mockSign checksumDigest (getManifest exampleResults)
               "/ns/default/taskrun/build",
             ResultType := TaskRunResultType }]) ∧
    (∀ r ∈ signOutput checksumDigest "/ns/default/taskrun/build" exampleResults,
      r.ResultType = TaskRunResultType) ∧
    (signOutput checksumDigest "/ns/default/taskrun/build" exampleResults).length =
      (exampleResults.filter fun r => decide (r.ResultType = TaskRunResultType)).length + 3 :=
  Sign_output_shape checksumDigest exampleClient exampleResults _
    "/ns/default/taskrun/build" [] rfl rfl rfl

/-- C10. With `SignOverride` nil and an empty identity queue, `Sign` returns no field set and
the "signIdentities empty" error, and the client (`SignIdentities` and `Entries` included) is
left as it was, whatever the input results are. -/
theorem Sign_empty_queue_fails {σ : Type} (Sum256 : String → Digest) (sc : SpireMockClient σ)
    (results : List PipelineResourceResult) (hov : sc.SignOverride = none)
    (hq : sc.SignIdentities = []) :
    Sign Sum256 sc results =
      (.error ("signIdentities empty, please provide identities to sign with the " ++
        "SpireMockClient.GetIdentity function"), sc) := by
  simp [Sign, hov, hq]

/-- C10, at a concrete input: a client with registered entries and an empty queue. -/
theorem Sign_empty_queue_fails_witness :
    Sign checksumDigest
        ({ Entries := some [("/ns/default/taskrun/build", true)] } : SpireMockClient String)
        exampleResults =
      (.error ("signIdentities empty, please provide identities to sign with the " ++
        "SpireMockClient.GetIdentity function"),
       ({ Entries := some [("/ns/default/taskrun/build", true)] } : SpireMockClient String)) :=
  Sign_empty_queue_fails checksumDigest _ exampleResults rfl rfl

/-! ## The fetch loop of `getxsvid` -/

theorem fetchLoop_done (fetch : Nat → FetchResult) (i : Nat) (st : FetchState)
    (h : ¬ i < 20) : fetchLoop fetch i st = st := by
  rw [fetchLoop]
  simp [h]

theorem fetchLoop_success (fetch : Nat → FetchResult) (i : Nat) (st : FetchState)
    (h : i < 20) (herr : (fetch st.attempts).2 = none) :
    fetchLoop fetch i st =
      { st with xsvid := (fetch st.attempts).1, err := none, attempts := st.attempts + 1 } := by
  rw [fetchLoop]
  simp [h, herr]

theorem fetchLoop_failure (fetch : Nat → FetchResult) (i : Nat) (st : FetchState)
    (h : i < 20) (herr : (fetch st.attempts).2 ≠ none) :
    fetchLoop fetch i st =
      fetchLoop fetch (i + backOff)
        { xsvid := (fetch st.attempts).1, err := (fetch st.attempts).2,
          attempts := st.attempts + 1, sleeps := st.sleeps ++ [backOff] } := by
  rw [fetchLoop]
  simp [h, herr]

/-- What the loop leaves behind, started at a value `i < 20` of the loop variable: at least
one and at most `(21 - i) / 2` further attempts; the variables hold the last response; every
earlier response carried an error; one delay of `backOff` seconds was slept after each
attempt that returned an error. -/
theorem fetchLoop_spec (fetch : Nat → FetchResult) :
    ∀ (n i : Nat) (st : FetchState), 20 - i ≤ n → i < 20 →
      st.attempts < (fetchLoop fetch i st).attempts ∧
      (fetchLoop fetch i st).attempts ≤ st.attempts + (21 - i) / 2 ∧
      ((fetchLoop fetch i st).xsvid, (fetchLoop fetch i st).err) =
        fetch ((fetchLoop fetch i st).attempts - 1) ∧
      ((fetchLoop fetch i st).err ≠ none →
        (fetchLoop fetch i st).attempts = st.attempts + (21 - i) / 2) ∧
      (fetchLoop fetch i st).sleeps =
        st.sleeps ++ List.replicate
          ((fetchLoop fetch i st).attempts - st.attempts -
            (if (fetchLoop fetch i st).err = none then 1 else 0)) backOff
  | 0, i, st, hn, hi => by omega
  | n + 1, i, st, hn, hi => by
    by_cases herr : (fetch st.attempts).2 = none
    · rw [fetchLoop_success fetch i st hi herr]
      refine ⟨by simp, by simp; omega, ?_, by simp, by simp⟩
      simp only [Nat.add_sub_cancel]
      rw [← herr]
    · rw [fetchLoop_failure fetch i st hi herr]
      by_cases hi2 : i + backOff < 20
      · have ih := fetchLoop_spec fetch n (i + backOff)
          { xsvid := (fetch st.attempts).1, err := (fetch st.attempts).2,
            attempts := st.attempts + 1, sleeps := st.sleeps ++ [backOff] }
          (by simp only [backOff] at hi2 ⊢; omega) hi2
        generalize fetchLoop fetch (i + backOff)
          { xsvid := (fetch st.attempts).1, err := (fetch st.attempts).2,
            attempts := st.attempts + 1, sleeps := st.sleeps ++ [backOff] } = r at ih ⊢
        obtain ⟨h1, h2, h3, h4, h5⟩ := ih
        simp only at h1 h2 h4 h5
        simp only [backOff] at h2 h4 hi2
        refine ⟨by omega, by omega, h3, fun hne => by have := h4 hne; omega, ?_⟩
        have hk : r.attempts - st.attempts - (if r.err = none then 1 else 0) =
            (r.attempts - (st.attempts + 1) - (if r.err = none then 1 else 0)) + 1 := by
          split <;> omega
        rw [h5, hk, List.replicate_succ, List.append_assoc]
        rfl
      · rw [fetchLoop_done fetch _ _ hi2]
        simp only [backOff] at hi2
        refine ⟨by simp, by simp; omega, by simp, fun _ => by simp; omega, ?_⟩
        simp [herr]

theorem getxsvid_state (fetch : Nat → FetchResult) :
    (getxsvid fetch).2.2 =
      fetchLoop fetch 0 { xsvid := none, err := none, attempts := 0, sleeps := [] } := by
  unfold getxsvid
  simp only
  split
  · split <;> rfl
  · rfl

/-- Whatever the endpoint answers, `getxsvid` terminates after at least one and at most 10
fetch attempts, and its variables hold the last response. -/
theorem getxsvid_attempts_le (fetch : Nat → FetchResult) :
    1 ≤ (getxsvid fetch).2.2.attempts ∧ (getxsvid fetch).2.2.attempts ≤ 10 ∧
    ((getxsvid fetch).2.2.xsvid, (getxsvid fetch).2.2.err) =
      fetch ((getxsvid fetch).2.2.attempts - 1) := by
  have h := fetchLoop_spec fetch 20 0
    { xsvid := none, err := none, attempts := 0, sleeps := [] } (by omega) (by omega)
  rw [getxsvid_state]
  obtain ⟨h1, h2, h3, -⟩ := h
  simp only at h1 h2
  exact ⟨by omega, by omega, h3⟩

/-- When every response carries an error and none carries a usable credential, `getxsvid`
makes exactly 10 attempts and returns no credential and the timeout error wrapping the last
error. -/
theorem getxsvid_all_errors (fetch : Nat → FetchResult)
    (herr : ∀ n, (fetch n).2 ≠ none)
    (hcred : ∀ n x, (fetch n).1 = some x → x.Certificates = []) :
    (getxsvid fetch).2.2.attempts = 10 ∧ (getxsvid fetch).1 = none ∧
    (getxsvid fetch).2.1 =
      Wrap (fetch 9).2 "requested SVID failed to get fetched and timed out" ∧
    (getxsvid fetch).2.1 ≠ none := by
  have h := fetchLoop_spec fetch 20 0
    { xsvid := none, err := none, attempts := 0, sleeps := [] } (by omega) (by omega)
  obtain ⟨-, -, h3, h4, -⟩ := h
  generalize hr : fetchLoop fetch 0 { xsvid := none, err := none, attempts := 0, sleeps := [] }
    = r at h3 h4
  have hx : r.xsvid = (fetch (r.attempts - 1)).1 := congrArg Prod.fst h3
  have he : r.err = (fetch (r.attempts - 1)).2 := congrArg Prod.snd h3
  have hatt : r.attempts = 10 := by
    have := h4 (by rw [he]; exact herr _)
    simpa using this
  rw [hatt] at hx he
  simp only [Nat.reduceSub] at hx he
  have hne : Wrap r.err "requested SVID failed to get fetched and timed out" ≠ none := by
    rw [he]
    cases h9 : (fetch 9).2 with
    | none => exact absurd h9 (herr 9)
    | some e => simp [Wrap]
  have hres : (getxsvid fetch).1 = none ∧
      (getxsvid fetch).2.1 =
        Wrap r.err "requested SVID failed to get fetched and timed out" := by
    unfold getxsvid
    simp only [hr]
    cases hxs : r.xsvid with
    | none => exact ⟨rfl, rfl⟩
    | some x =>
      have hc := hcred 9 x (by rw [← hx, hxs])
      simp [hc]
  rw [getxsvid_state, hr]
  refine ⟨hatt, hres.1, ?_, ?_⟩
  · rw [hres.2, he]
  · rw [hres.2]
    exact hne

/-! ## Claims on `getxsvid` -/

/-- The return statement of `getxsvid` on a response the concrete client does not give: were
a call answered with a credential without certificate and a nil error, the loop would stop
after that attempt and `errors.Wrap` of the nil error would be nil, so that no credential
and no error would be returned. -/
theorem getxsvid_empty_credential_returns_nil_error :
    getxsvid (fun _ => (some { Certificates := [] }, none)) =
      (none, none,
        { xsvid := some { Certificates := [] }, err := none, attempts := 1, sleeps := [] }) := by
  simp [getxsvid, fetchLoop, Wrap]

/-- C7. For every sequence of responses in which no response is a usable credential,
`getxsvid` stops after 10 fetch attempts, hence after at most 10, and returns no credential
together with the timeout error "requested SVID failed to get fetched and timed out", which
wraps the last fetch error and is not nil. The responses are those of the concrete client
held in `w.client`, which returns a nil error only together with a credential that has a
certificate: an endpoint answer without certificate reaches `getxsvid` as an error. -/
theorem getxsvid_times_out (fetch : Nat → FetchResult)
    (hclient : ∀ n, (fetch n).2 = none →
      ∃ x, (fetch n).1 = some x ∧ x.Certificates ≠ [])
    (hunusable : ∀ n x, (fetch n).1 = some x → x.Certificates = []) :
    (getxsvid fetch).2.2.attempts = 10 ∧ (getxsvid fetch).2.2.attempts ≤ 10 ∧
    (getxsvid fetch).1 = none ∧
    (getxsvid fetch).2.1 ≠ none ∧
    ∃ cause, (fetch 9).2 = some cause ∧
      (getxsvid fetch).2.1 =
        some ("requested SVID failed to get fetched and timed out" ++ ": " ++ cause) := by
  have herr : ∀ n, (fetch n).2 ≠ none := by
    intro n h
    obtain ⟨x, hx, hc⟩ := hclient n h
    exact hc (hunusable n x hx)
  obtain ⟨hatt, hcred, hwrap, hne⟩ := getxsvid_all_errors fetch herr hunusable
  refine ⟨hatt, by omega, hcred, hne, ?_⟩
  cases h9 : (fetch 9).2 with
  | none => exact absurd h9 (herr 9)
  | some cause =>
    refine ⟨cause, rfl, ?_⟩
    rw [hwrap, h9]
    rfl

/-- C7, at a concrete input: an endpoint that answers every call with an error. -/
theorem getxsvid_times_out_witness :
    (getxsvid (fun _ => (none, some "unavailable"))).2.2.attempts = 10 ∧
    (getxsvid (fun _ => (none, some "unavailable"))).2.2.attempts ≤ 10 ∧
    (getxsvid (fun _ => (none, some "unavailable"))).1 = none ∧
    (getxsvid (fun _ => (none, some "unavailable"))).2.1 ≠ none ∧
    ∃ cause, ((fun _ => (none, some "unavailable") : Nat → FetchResult) 9).2 = some cause ∧
      (getxsvid (fun _ => (none, some "unavailable"))).2.1 =
        some ("requested SVID failed to get fetched and timed out" ++ ": " ++ cause) :=
  getxsvid_times_out (fun _ => (none, some "unavailable"))
    (fun _ h => Option.noConfusion h) (fun _ _ h => Option.noConfusion h)

/-- C8 fails as stated: when every fetch fails, the ten delays slept are 2, 2, ..., 2 seconds;
the second delay is 2, not 4, and the delays are not strictly increasing. -/
theorem getxsvid_delays_not_doubling :
    (getxsvid (fun _ => (none, some "unavailable"))).2.2.sleeps =
        [2, 2, 2, 2, 2, 2, 2, 2, 2, 2] ∧
    ¬ List.Chain' (fun a b => a < b)
        (getxsvid (fun _ => (none, some "unavailable"))).2.2.sleeps := by
  have h : (getxsvid (fun _ => (none, some "unavailable"))).2.2.sleeps =
      [2, 2, 2, 2, 2, 2, 2, 2, 2, 2] := by
    simp [getxsvid, fetchLoop, backOff, Wrap]
  rw [h]
  exact ⟨rfl, by simp⟩

/-- C8 as amended: in `getxsvid` one delay is slept after each fetch attempt that returned an
error, and every delay is the constant `backOff`, 2 seconds; there are at most 10 of them, so
the delays are equal (non-decreasing), not doubling. -/
theorem getxsvid_delays_constant (fetch : Nat → FetchResult) :
    (getxsvid fetch).2.2.sleeps =
      List.replicate
        ((getxsvid fetch).2.2.attempts - (if (getxsvid fetch).2.2.err = none then 1 else 0)) 2 ∧
    (getxsvid fetch).2.2.sleeps.length ≤ 10 ∧
    ∀ d ∈ (getxsvid fetch).2.2.sleeps, d = 2 := by
  have h := fetchLoop_spec fetch 20 0
    { xsvid := none, err := none, attempts := 0, sleeps := [] } (by omega) (by omega)
  rw [getxsvid_state]
  obtain ⟨-, h2, -, -, h5⟩ := h
  simp only [List.nil_append, Nat.sub_zero, backOff] at h2 h5
  refine ⟨h5, ?_, ?_⟩
  · rw [h5, List.length_replicate]
    omega
  · intro d hd
    rw [h5] at hd
    exact List.eq_of_mem_replicate hd

/-! ## The status chain -/

/-- What a successful `AppendStatusInternalAnnotation` returns: the status fields are
untouched and the three slots are written over whatever the annotations held. -/
theorem Append_ok {σ : Type} (Sum256 : String → Digest)
    (hashStatus : σ → Except String String) (sc : SpireMockClient σ) (tr : TaskRun σ)
    (H : String) (hH : hashStatus tr.StatusFields = .ok H) :
    AppendStatusInternalAnnotation Sum256 hashStatus sc tr =
      (none, { tr with
        Annotations := some (GoMap.set (GoMap.set (GoMap.set (annotationsOf tr)
          controllerSvidAnnotation controllerSvid) TaskRunStatusHashAnnotation H)
          taskRunStatusHashSigAnnotation (mockSign Sum256 H "controller")) }) := by
  unfold AppendStatusInternalAnnotation hashTaskrunStatusInternal annotationsOf
  rw [hH]
  cases tr.Annotations <;> rfl

theorem Append_error {σ : Type} (Sum256 : String → Digest)
    (hashStatus : σ → Except String String) (sc : SpireMockClient σ) (tr : TaskRun σ)
    (e : String) (hH : hashStatus tr.StatusFields = .error e) :
    AppendStatusInternalAnnotation Sum256 hashStatus sc tr = (some e, tr) := by
  unfold AppendStatusInternalAnnotation hashTaskrunStatusInternal
  rw [hH]

/-- The verdict of `VerifyStatusInternalAnnotation` on a task run whose three slots are as
`AppendStatusInternalAnnotation` wrote them for the hash `H`, whose status now hashes to
`H'`, and that carries no not-verified marker: success when `H' = H`; the signature error
when the digests of `H'` and `H` differ; the hash-mismatch error in the remaining case. -/
theorem Verify_after_Append {σ : Type} (Sum256 : String → Digest)
    (hashStatus : σ → Except String String) (sc : SpireMockClient σ)
    (ns name : String) (s' : σ) (m : GoMap String) (H H' : String)
    (hov : sc.VerifyStatusInternalAnnotationOverride = none)
    (hal : sc.VerifyAlwaysReturns = none)
    (hfl : sc.CheckSpireVerifiedFlagOverride = none)
    (hnv : m.get? NotVerifiedAnnotation = none)
    (hH' : hashStatus s' = .ok H') :
    VerifyStatusInternalAnnotation Sum256 hashStatus sc
        { Namespace := ns, Name := name, StatusFields := s',
          Annotations := some (GoMap.set (GoMap.set (GoMap.set m
            controllerSvidAnnotation controllerSvid) TaskRunStatusHashAnnotation H)
            taskRunStatusHashSigAnnotation (mockSign Sum256 H "controller")) } =
      if Sum256 H' = Sum256 H then
        (if H = H' then none else some "StatusHashMismatch")
      else some "signature was not able to be verified" := by
  have k1 : controllerSvidAnnotation ≠ taskRunStatusHashSigAnnotation := by decide
  have k2 : controllerSvidAnnotation ≠ TaskRunStatusHashAnnotation := by decide
  have k3 : TaskRunStatusHashAnnotation ≠ taskRunStatusHashSigAnnotation := by decide
  have k4 : NotVerifiedAnnotation ≠ taskRunStatusHashSigAnnotation := by decide
  have k5 : NotVerifiedAnnotation ≠ TaskRunStatusHashAnnotation := by decide
  have k6 : NotVerifiedAnnotation ≠ controllerSvidAnnotation := by decide
  have g1 : ((((m.set controllerSvidAnnotation controllerSvid).set
      TaskRunStatusHashAnnotation H).set taskRunStatusHashSigAnnotation
      (mockSign Sum256 H "controller")).get? controllerSvidAnnotation) =
      some controllerSvid := by
    rw [GoMap.get?_set_ne _ _ _ k1, GoMap.get?_set_ne _ _ _ k2, GoMap.get?_set_self]
  have g2 : ((((m.set controllerSvidAnnotation controllerSvid).set
      TaskRunStatusHashAnnotation H).set taskRunStatusHashSigAnnotation
      (mockSign Sum256 H "controller")).get? TaskRunStatusHashAnnotation) = some H := by
    rw [GoMap.get?_set_ne _ _ _ k3, GoMap.get?_set_self]
  have g3 : ((((m.set controllerSvidAnnotation controllerSvid).set
      TaskRunStatusHashAnnotation H).set taskRunStatusHashSigAnnotation
      (mockSign Sum256 H "controller")).get? taskRunStatusHashSigAnnotation) =
      some (mockSign Sum256 H "controller") := by
    rw [GoMap.get?_set_self]
  have g4 : ((((m.set controllerSvidAnnotation controllerSvid).set
      TaskRunStatusHashAnnotation H).set taskRunStatusHashSigAnnotation
      (mockSign Sum256 H "controller")).get? NotVerifiedAnnotation) = none := by
    rw [GoMap.get?_set_ne _ _ _ k4, GoMap.get?_set_ne _ _ _ k5, GoMap.get?_set_ne _ _ _ k6, hnv]
  simp only [ VerifyStatusInternalAnnotation, hov, hal, CheckSpireVerifiedFlag, hfl,
    annotationsOf, Option.getD_some, g1, g2, g3, g4, hashTaskrunStatusInternal, hH',
    CheckStatusInternalAnnotation, Bool.not_true, Bool.false_eq_true, if_false, ne_eq,
    not_true_eq_false, Bool.not_eq_true']
  by_cases hd : Sum256 H' = Sum256 H
  · have hv : mockVerify Sum256 H' (mockSign Sum256 H "controller") "controller" = true :=
      (mockVerify_mockSign Sum256 H' H "controller").2 hd
    simp only [hv, hd, Bool.true_eq_false, if_false, if_true, Option.some.injEq]
    by_cases hh : H = H'
    · simp [hh]
    · simp [hh]
  · have hv : mockVerify Sum256 H' (mockSign Sum256 H "controller") "controller" = false := by
      rw [← Bool.not_eq_true, mockVerify_mockSign]
      exact hd
    simp [hv, hd]

/-! ## Claims on the status chain -/

/-- C5 fails as stated: a task run is signed by `AppendStatusInternalAnnotation`, then its
status is changed so that the status hash changes, the three slots left as written; the
verification fails with the signature error, not with the status-hash-mismatch error. -/
theorem status_mutation_reports_signature_error :
    hexDigest (checksumDigest "Succeeded") ≠ hexDigest (checksumDigest "Failed") ∧
    VerifyStatusInternalAnnotation checksumDigest checksumStatus exampleClient
        { ( AppendStatusInternalAnnotation checksumDigest checksumStatus exampleClient
            exampleTaskRun).2 with StatusFields := "Failed" } =
      some "signature was not able to be verified" ∧
    VerifyStatusInternalAnnotation checksumDigest checksumStatus exampleClient
        { ( AppendStatusInternalAnnotation checksumDigest checksumStatus exampleClient
            exampleTaskRun).2 with StatusFields := "Failed" } ≠
      some "StatusHashMismatch" := by
  decide

/-- C5 as amended: with no override hooks set, for a task run without the not-verified
marker that `AppendStatusInternalAnnotation` signed at status hash `H`, if the status is then
changed so that it hashes to `H'` with `H'` different from `H`, the three slots left as
written, `VerifyStatusInternalAnnotation` fails; the failure is the signature error whenever
the digests of `H'` and `H` differ (the signature over the recomputed hash is checked before
the hashes are compared), and the status-hash-mismatch error only when the two digests
coincide. -/
theorem status_mutation_detected {σ : Type} (Sum256 : String → Digest)
    (hashStatus : σ → Except String String) (sc : SpireMockClient σ) (tr : TaskRun σ)
    (s' : σ) (H H' : String)
    (hov : sc.VerifyStatusInternalAnnotationOverride = none)
    (hal : sc.VerifyAlwaysReturns = none)
    (hfl : sc.CheckSpireVerifiedFlagOverride = none)
    (hnv : (annotationsOf tr).get? NotVerifiedAnnotation = none)
    (hH : hashStatus tr.StatusFields = .ok H)
    (hH' : hashStatus s' = .ok H')
    (hne : H' ≠ H) :
    VerifyStatusInternalAnnotation Sum256 hashStatus sc
        { ( AppendStatusInternalAnnotation Sum256 hashStatus sc tr).2 with
          StatusFields := s' } ≠ none ∧
    (Sum256 H' ≠ Sum256 H →
      VerifyStatusInternalAnnotation Sum256 hashStatus sc
          { ( AppendStatusInternalAnnotation Sum256 hashStatus sc tr).2 with
            StatusFields := s' } =
        some "signature was not able to be verified") ∧
    (Sum256 H' = Sum256 H →
      VerifyStatusInternalAnnotation Sum256 hashStatus sc
          { ( AppendStatusInternalAnnotation Sum256 hashStatus sc tr).2 with
            StatusFields := s' } =
        some "StatusHashMismatch") := by
  rw [Append_ok Sum256 hashStatus sc tr H hH]
  have hv := Verify_after_Append Sum256 hashStatus sc tr.Namespace tr.Name s'
    (annotationsOf tr) H H' hov hal hfl hnv hH'
  have hne' : ¬ H = H' := fun h => hne h.symm
  simp only [hne', if_false] at hv
  refine ⟨?_, ?_, ?_⟩
  · rw [hv]
    split <;> simp
  · intro hd
    rw [hv, if_neg hd]
  · intro hd
    rw [hv, if_pos hd]

/-- C5 as amended, at a concrete input: the example task run is signed, then its status is
changed from "Succeeded" to "Failed". -/
theorem status_mutation_detected_witness :
    VerifyStatusInternalAnnotation checksumDigest checksumStatus exampleClient
        { ( AppendStatusInternalAnnotation checksumDigest checksumStatus exampleClient
            exampleTaskRun).2 with StatusFields := "Failed" } ≠ none :=
  (status_mutation_detected checksumDigest checksumStatus exampleClient exampleTaskRun
    "Failed" (hexDigest (checksumDigest "Succeeded")) (hexDigest (checksumDigest "Failed"))
    rfl rfl rfl rfl rfl rfl (by decide)).1

/-- C6. With no override hooks set, for every task run without the not-verified marker,
whatever its status annotations held before (nil included), if
`AppendStatusInternalAnnotation` succeeds then `VerifyStatusInternalAnnotation` on the
resulting task run returns no error. -/
theorem Append_then_Verify_succeeds {σ : Type} (Sum256 : String → Digest)
    (hashStatus : σ → Except String String) (sc : SpireMockClient σ) (tr : TaskRun σ)
    (hov : sc.VerifyStatusInternalAnnotationOverride = none)
    (hal : sc.VerifyAlwaysReturns = none)
    (hfl : sc.CheckSpireVerifiedFlagOverride = none)
    (hnv : (annotationsOf tr).get? NotVerifiedAnnotation = none)
    (happ : ( AppendStatusInternalAnnotation Sum256 hashStatus sc tr).1 = none) :
    VerifyStatusInternalAnnotation Sum256 hashStatus sc
        ( AppendStatusInternalAnnotation Sum256 hashStatus sc tr).2 = none := by
  cases hH : hashStatus tr.StatusFields with
  | error e =>
    rw [Append_error Sum256 hashStatus sc tr e hH] at happ
    cases happ
  | ok H =>
    rw [Append_ok Sum256 hashStatus sc tr H hH]
    have hv := Verify_after_Append Sum256 hashStatus sc tr.Namespace tr.Name tr.StatusFields
      (annotationsOf tr) H H hov hal hfl hnv hH
    simp only [if_true] at hv
    exact hv

/-- C6, at a concrete input: the example task run after a tampering that left stale values
in the three slots. -/
theorem Append_then_Verify_succeeds_witness :
    VerifyStatusInternalAnnotation checksumDigest checksumStatus exampleClient
        ( AppendStatusInternalAnnotation checksumDigest checksumStatus exampleClient
          { exampleTaskRun with
            Annotations := some [( TaskRunStatusHashAnnotation, "stale"),
              ( taskRunStatusHashSigAnnotation, "forged"),
              ( controllerSvidAnnotation, "other")] }).2 = none :=
  Append_then_Verify_succeeds checksumDigest checksumStatus exampleClient
    { exampleTaskRun with
      Annotations := some [( TaskRunStatusHashAnnotation, "stale"),
        ( taskRunStatusHashSigAnnotation, "forged"),
        ( controllerSvidAnnotation, "other")] }
    rfl rfl rfl (by decide) rfl

/-! ## Lemmas on the result map -/

theorem GoMap.keys_set {β : Type} (k : String) (v : β) :
    ∀ m : GoMap β, (m.set k v).keys = if k ∈ m.keys then m.keys else m.keys ++ [k]
  | [] => by simp [GoMap.set, GoMap.keys]
  | (k', v') :: rest => by
    have ih := GoMap.keys_set k v rest
    simp only [GoMap.keys] at ih ⊢
    by_cases h : k' = k
    · subst h
      simp [GoMap.set]
    · have h' : ¬ k = k' := fun e => h e.symm
      simp only [GoMap.set, h, if_false, List.map_cons, ih, List.mem_cons, h', false_or]
      split <;> simp

theorem GoMap.nodup_set {β : Type} (k : String) (v : β) (m : GoMap β)
    (h : m.keys.Nodup) : (m.set k v).keys.Nodup := by
  rw [GoMap.keys_set]
  split
  · exact h
  · rename_i hk
    rw [List.nodup_append]
    refine ⟨h, List.nodup_singleton k, ?_⟩
    intro a ha hb
    simp only [List.mem_singleton] at hb
    subst hb
    exact hk ha

theorem GoMap.get?_of_mem {β : Type} (k : String) (v : β) :
    ∀ m : GoMap β, m.keys.Nodup → (k, v) ∈ m → m.get? k = some v
  | [], _, h => by simp at h
  | (k', v') :: rest, hnd, h => by
    simp only [GoMap.keys, List.map_cons, List.nodup_cons] at hnd
    simp only [List.mem_cons, Prod.mk.injEq] at h
    rcases h with ⟨rfl, rfl⟩ | h
    · simp [GoMap.get?]
    · have hne : ¬ k' = k := by
        intro e
        subst e
        exact hnd.1 (List.mem_map_of_mem Prod.fst h)
      simp only [GoMap.get?, hne, if_false]
      exact GoMap.get?_of_mem k v rest hnd.2 h

theorem GoMap.mem_of_get? {β : Type} (k : String) (v : β) :
    ∀ m : GoMap β, m.get? k = some v → (k, v) ∈ m
  | [], h => by simp [GoMap.get?] at h
  | (k', v') :: rest, h => by
    by_cases hk : k' = k
    · subst hk
      simp only [GoMap.get?, if_true, Option.some.injEq] at h
      subst h
      exact List.mem_cons_self _ _
    · simp only [GoMap.get?, hk, if_false] at h
      exact List.mem_cons_of_mem _ (GoMap.mem_of_get? k v rest h)

theorem GoMap.get?_eq_none {β : Type} (k : String) :
    ∀ m : GoMap β, k ∉ m.keys → m.get? k = none
  | [], _ => rfl
  | (k', v') :: rest, h => by
    simp only [GoMap.keys, List.map_cons, List.mem_cons, not_or] at h
    have hk : ¬ k' = k := fun e => h.1 e.symm
    simp only [GoMap.get?, hk, if_false]
    exact GoMap.get?_eq_none k rest h.2

theorem GoMap.get?_map {β : Type} (f : β → β) (k : String) :
    ∀ m : GoMap β, GoMap.get? (m.map fun e => (e.1, f e.2)) k = (m.get? k).map f
  | [] => rfl
  | (k', v') :: rest => by
    by_cases hk : k' = k
    · simp [GoMap.get?, hk]
    · simp only [List.map_cons, GoMap.get?, hk, if_false]
      exact GoMap.get?_map f k rest

theorem GoMap.set_map {β : Type} (f : β → β) (k : String) (v : β) :
    ∀ m : GoMap β,
      GoMap.set (m.map fun e => (e.1, f e.2)) k (f v) =
        (m.set k v).map fun e => (e.1, f e.2)
  | [] => rfl
  | (k', v') :: rest => by
    by_cases hk : k' = k
    · simp [GoMap.set, hk]
    · simp only [List.map_cons, GoMap.set, hk, if_false, List.cons.injEq, true_and]
      exact GoMap.set_map f k v rest

theorem resultMap_nodup : ∀ (prs : List PipelineResourceResult)
    (m : GoMap PipelineResourceResult), m.keys.Nodup →
      (prs.foldl resultMapStep m).keys.Nodup
  | [], _, h => h
  | r :: rs, m, h => by
    simp only [List.foldl_cons]
    apply resultMap_nodup rs
    unfold resultMapStep
    split
    · exact GoMap.nodup_set _ _ _ h
    · exact h

theorem buildResultMap_nodup (prs : List PipelineResourceResult) :
    (buildResultMap prs).keys.Nodup :=
  resultMap_nodup prs [] List.nodup_nil

theorem GoMap.mem_set {β : Type} (k : String) (v : β) (e : String × β) :
    ∀ m : GoMap β, e ∈ m.set k v → e = (k, v) ∨ e ∈ m
  | [], h => by
    simp only [GoMap.set, List.mem_singleton] at h
    exact Or.inl h
  | (k', v') :: rest, h => by
    by_cases hk : k' = k
    · simp only [GoMap.set, hk, if_true, List.mem_cons] at h
      rcases h with h | h
      · exact Or.inl h
      · exact Or.inr (List.mem_cons_of_mem _ h)
    · simp only [GoMap.set, hk, if_false, List.mem_cons] at h
      rcases h with h | h
      · exact Or.inr (h ▸ List.mem_cons_self _ _)
      · rcases GoMap.mem_set k v e rest h with h | h
        · exact Or.inl h
        · exact Or.inr (List.mem_cons_of_mem _ h)

/-- Every entry of the result map is filed under its own key and has the task-run type. -/
theorem resultMap_entries : ∀ (prs : List PipelineResourceResult)
    (m : GoMap PipelineResourceResult),
      (∀ e ∈ m, e.2.Key = e.1 ∧ e.2.ResultType = TaskRunResultType) →
      ∀ e ∈ prs.foldl resultMapStep m, e.2.Key = e.1 ∧ e.2.ResultType = TaskRunResultType
  | [], _, h => h
  | r :: rs, m, h => by
    simp only [List.foldl_cons]
    apply resultMap_entries rs
    unfold resultMapStep
    split
    · rename_i hr
      intro e he
      rcases GoMap.mem_set r.Key r e m he with h3 | h3
      · rw [h3]
        exact ⟨rfl, hr⟩
      · exact h e h3
    · exact h

theorem buildResultMap_entries (prs : List PipelineResourceResult) :
    ∀ e ∈ buildResultMap prs, e.2.Key = e.1 ∧ e.2.ResultType = TaskRunResultType :=
  resultMap_entries prs [] (fun _ h => absurd h (List.not_mem_nil _))

theorem HasSuffix_append (a b : String) : HasSuffix (a ++ b) b = true := by
  unfold HasSuffix
  rw [List.isSuffixOf_iff_suffix, String.data_append]
  exact List.suffix_append _ _

theorem isPlainKey_sig (a : String) : isPlainKey (a ++ KeySignatureSuffix) = false := by
  simp [isPlainKey, HasSuffix_append]

/-- Folding results none of which is a task-run result with key `k` does not change what the
map holds at `k`. -/
theorem resultMap_get?_other (k : String) : ∀ (prs : List PipelineResourceResult)
    (m : GoMap PipelineResourceResult),
      (∀ r ∈ prs, r.ResultType = TaskRunResultType → r.Key ≠ k) →
      (prs.foldl resultMapStep m).get? k = m.get? k
  | [], _, _ => rfl
  | r :: rs, m, h => by
    simp only [List.foldl_cons]
    rw [resultMap_get?_other k rs _ (fun x hx => h x (List.mem_cons_of_mem _ hx))]
    unfold resultMapStep
    split
    · rename_i hr
      exact GoMap.get?_set_ne _ _ _ (fun e => h r (List.mem_cons_self _ _) hr e.symm) m
    · rfl

/-- The key of every task-run result is a key of the result map. -/
theorem resultMap_mem_keys (k : String) : ∀ (prs : List PipelineResourceResult)
    (m : GoMap PipelineResourceResult),
      (k ∈ m.keys ∨ ∃ r ∈ prs, r.ResultType = TaskRunResultType ∧ r.Key = k) →
      k ∈ (prs.foldl resultMapStep m).keys
  | [], m, h => by
    rcases h with h | ⟨r, hr, _⟩
    · exact h
    · exact absurd hr (List.not_mem_nil _)
  | x :: xs, m, h => by
    simp only [List.foldl_cons]
    apply resultMap_mem_keys k xs
    rcases h with h | ⟨r, hr, hrt, hrk⟩
    · left
      unfold resultMapStep
      split
      · rw [GoMap.keys_set]
        split
        · exact h
        · exact List.mem_append_left _ h
      · exact h
    · rcases List.mem_cons.1 hr with rfl | hr
      · left
        unfold resultMapStep
        rw [if_pos hrt, GoMap.keys_set, hrk]
        split
        · assumption
        · exact List.mem_append_right _ (List.mem_singleton_self _)
      · right
        exact ⟨r, hr, hrt, hrk⟩

/-- Folding results none of whose keys is a plain key does not change the plain keys. -/
theorem resultMap_plainKeys_other : ∀ (prs : List PipelineResourceResult)
    (m : GoMap PipelineResourceResult), (∀ r ∈ prs, isPlainKey r.Key = false) →
      (prs.foldl resultMapStep m).keys.filter isPlainKey = m.keys.filter isPlainKey
  | [], _, _ => rfl
  | r :: rs, m, h => by
    simp only [List.foldl_cons]
    rw [resultMap_plainKeys_other rs _ (fun x hx => h x (List.mem_cons_of_mem _ hx))]
    unfold resultMapStep
    split
    · rw [GoMap.keys_set]
      split
      · rfl
      · simp [List.filter_append, h r (List.mem_cons_self _ _)]
    · rfl

/-- The plain keys of the result map are the plain keys of the task-run results, in order,
when these are pairwise distinct. -/
theorem resultMap_plainKeys : ∀ (prs : List PipelineResourceResult)
    (m : GoMap PipelineResourceResult),
      (m.keys.filter isPlainKey ++
        (prs.filter fun r =>
          decide (r.ResultType = TaskRunResultType) && isPlainKey r.Key).map
            fun r => r.Key).Nodup →
      (prs.foldl resultMapStep m).keys.filter isPlainKey =
        m.keys.filter isPlainKey ++
          (prs.filter fun r =>
            decide (r.ResultType = TaskRunResultType) && isPlainKey r.Key).map fun r => r.Key
  | [], _, _ => by simp
  | r :: rs, m, h => by
    simp only [List.foldl_cons]
    by_cases hr : r.ResultType = TaskRunResultType
    · by_cases hp : isPlainKey r.Key = true
      · have hnot : r.Key ∉ m.keys := by
          intro hmem
          simp only [List.filter_cons, hr, hp, decide_True, Bool.and_self, if_true,
            List.map_cons] at h
          have h1 := (List.nodup_append.1 h).2.2
          exact h1 (List.mem_filter.2 ⟨hmem, hp⟩) (List.mem_cons_self _ _)
        have hstep : (resultMapStep m r).keys.filter isPlainKey =
            m.keys.filter isPlainKey ++ [r.Key] := by
          unfold resultMapStep
          rw [if_pos hr, GoMap.keys_set, if_neg hnot]
          simp [List.filter_append, hp]
        simp only [List.filter_cons, hr, hp, decide_True, Bool.and_self, if_true,
          List.map_cons] at h ⊢
        rw [resultMap_plainKeys rs _ (by rw [hstep]; simpa using h), hstep]
        simp
      · have hp' : isPlainKey r.Key = false := by simpa using hp
        have hstep : (resultMapStep m r).keys.filter isPlainKey =
            m.keys.filter isPlainKey := by
          unfold resultMapStep
          rw [if_pos hr, GoMap.keys_set]
          split
          · rfl
          · simp [List.filter_append, hp']
        simp only [List.filter_cons, hr, hp', decide_True, Bool.and_false, Bool.false_eq_true,
          if_false] at h ⊢
        rw [resultMap_plainKeys rs _ (by rw [hstep]; exact h), hstep]
    · have hstep : resultMapStep m r = m := by
        unfold resultMapStep
        rw [if_neg hr]
      simp only [List.filter_cons, hr, decide_False, Bool.false_and, Bool.false_eq_true,
        if_false] at h ⊢
      rw [hstep]
      exact resultMap_plainKeys rs m h

/-! ## Lemmas on the field loop -/

theorem verifyFields_cons (Sum256 : String → Digest) (m : GoMap PipelineResourceResult)
    (identity : String) (e : String × PipelineResourceResult)
    (rest : List (String × PipelineResourceResult)) :
    verifyFields Sum256 m identity (e :: rest) =
      if fieldPasses Sum256 m identity e = true then verifyFields Sum256 m identity rest
      else some ("failed to verify field: " ++ e.1) := by
  obtain ⟨key, r⟩ := e
  unfold fieldPasses
  rw [verifyFields]
  by_cases h1 : HasSuffix key KeySignatureSuffix = true
  · simp [h1]
  · by_cases h2 : key = KeySVID
    · simp [h1, h2]
    · cases h3 : m.get? (key ++ KeySignatureSuffix) with
      | none => simp [h1, h2, h3]
      | some sigEntry => simp [h1, h2, h3]

theorem verifyFields_none (Sum256 : String → Digest) (m : GoMap PipelineResourceResult)
    (identity : String) : ∀ l : List (String × PipelineResourceResult),
      verifyFields Sum256 m identity l = none ↔
        ∀ e ∈ l, fieldPasses Sum256 m identity e = true
  | [] => by simp [verifyFields]
  | e :: rest => by
    rw [verifyFields_cons]
    by_cases h : fieldPasses Sum256 m identity e = true
    · simp [h, verifyFields_none Sum256 m identity rest]
    · simp [h]

/-- When only entries under the key `k` fail the check and one of them is visited, the loop
stops with the error that names `k`, in whatever order the entries are visited. -/
theorem verifyFields_names (Sum256 : String → Digest) (m : GoMap PipelineResourceResult)
    (identity k : String) : ∀ l : List (String × PipelineResourceResult),
      (∀ e ∈ l, e.1 ≠ k → fieldPasses Sum256 m identity e = true) →
      (∃ e ∈ l, e.1 = k ∧ fieldPasses Sum256 m identity e = false) →
      verifyFields Sum256 m identity l = some ("failed to verify field: " ++ k)
  | [], _, h => by
    obtain ⟨e, he, _⟩ := h
    exact absurd he (List.not_mem_nil _)
  | e :: rest, hothers, hk => by
    rw [verifyFields_cons]
    by_cases h : fieldPasses Sum256 m identity e = true
    · rw [if_pos h]
      apply verifyFields_names Sum256 m identity k rest
      · intro x hx
        exact hothers x (List.mem_cons_of_mem _ hx)
      · obtain ⟨x, hx, hxk, hxf⟩ := hk
        rcases List.mem_cons.1 hx with rfl | hx
        · rw [h] at hxf
          cases hxf
        · exact ⟨x, hx, hxk, hxf⟩
    · rw [if_neg h]
      have hek : e.1 = k := by
        by_contra hne
        exact h (hothers e (List.mem_cons_self _ _) hne)
      rw [hek]

/-- While the results are folded into one map and their signature fields into another, the
second map holds under `key ++ ".sig"` the signature of what the first holds under `key`. -/
theorem sig_entries_follow (Sum256 : String → Digest) (identity key : String) :
    ∀ (results : List PipelineResourceResult) (m0 m1 : GoMap PipelineResourceResult),
      (∀ r, m0.get? key = some r →
        ∃ s, m1.get? (key ++ KeySignatureSuffix) = some s ∧
          s.Value = mockSign Sum256 r.Value identity) →
      ∀ r, (results.foldl resultMapStep m0).get? key = some r →
        ∃ s, (((results.filter fun x => decide (x.ResultType = TaskRunResultType)).map
            (sigField Sum256 identity)).foldl resultMapStep m1).get?
              (key ++ KeySignatureSuffix) = some s ∧
          s.Value = mockSign Sum256 r.Value identity
  | [], _, _, h => by simpa using h
  | x :: xs, m0, m1, h => by
    by_cases hx : x.ResultType = TaskRunResultType
    · simp only [List.foldl_cons, List.filter_cons, hx, decide_True, if_true, List.map_cons]
      apply sig_entries_follow Sum256 identity key xs
      intro r hr
      have hs0 : resultMapStep m0 x = m0.set x.Key x := by
        unfold resultMapStep
        rw [if_pos hx]
      have hs1 : resultMapStep m1 (sigField Sum256 identity x) =
          m1.set (x.Key ++ KeySignatureSuffix) (sigField Sum256 identity x) := by
        unfold resultMapStep
        exact if_pos rfl
      rw [hs0] at hr
      rw [hs1]
      by_cases hk : x.Key = key
      · rw [hk, GoMap.get?_set_self] at hr
        rw [hk, GoMap.get?_set_self]
        injection hr with hr
        subst hr
        exact ⟨_, rfl, rfl⟩
      · rw [GoMap.get?_set_ne _ _ _ (fun e => hk e.symm)] at hr
        rw [GoMap.get?_set_ne _ _ _
          (fun e => hk (str_append_right_cancel e).symm)]
        exact h r hr
    · have hs0 : resultMapStep m0 x = m0 := by
        unfold resultMapStep
        rw [if_neg hx]
      simp only [List.foldl_cons, List.filter_cons, hx, decide_False, Bool.false_eq_true,
        if_false, hs0]
      exact sig_entries_follow Sum256 identity key xs m0 m1 h

/-! ## Verifying what was signed -/

theorem signOutput_keys_not_plain (Sum256 : String → Digest) (identity : String)
    (results : List PipelineResourceResult) :
    ∀ r ∈ signOutput Sum256 identity results, isPlainKey r.Key = false := by
  intro r hr
  rw [signOutput_eq] at hr
  simp only [List.mem_cons, List.mem_append, List.mem_map, List.mem_singleton,
    List.not_mem_nil, or_false] at hr
  rcases hr with rfl | ⟨a, _, rfl⟩ | rfl | rfl
  · show isPlainKey KeySVID = false
    decide
  · exact isPlainKey_sig _
  · show isPlainKey KeyResultManifest = false
    decide
  · exact isPlainKey_sig _

/-- The result map of the results followed by their signed field set, as a chain of updates
of the result map of the results alone. -/
theorem buildResultMap_signed (Sum256 : String → Digest) (identity : String)
    (results : List PipelineResourceResult) :
    buildResultMap (results ++ signOutput Sum256 identity results) =
      GoMap.set
        (GoMap.set
          (((results.filter fun x => decide (x.ResultType = TaskRunResultType)).map
              (sigField Sum256 identity)).foldl resultMapStep
            (GoMap.set (buildResultMap results) KeySVID
              { Key := KeySVID, Value := identity, ResultType := TaskRunResultType }))
          KeyResultManifest
          { Key := KeyResultManifest, Value := getManifest results,
            ResultType := TaskRunResultType })
        (KeyResultManifest ++ KeySignatureSuffix)
        { Key := KeyResultManifest ++ KeySignatureSuffix,
          Value := mockSign Sum256 (getManifest results) identity,
          ResultType := TaskRunResultType } := by
  unfold buildResultMap
  rw [signOutput_eq, List.foldl_append, List.foldl_cons, List.foldl_append]
  rfl

/-- The round trip of the mock: the input results followed by the field set signed for them
under the identity of the task run pass `VerifyTaskRunResults`, provided the plain-result
keys of the input are pairwise distinct. -/
theorem verify_signed_results {σ : Type} (Sum256 : String → Digest) (range : MapRange)
    (vc : SpireMockClient σ) (results : List PipelineResourceResult) (tr : TaskRun σ)
    (hov : vc.VerifyTaskRunResultsOverride = none) (hal : vc.VerifyAlwaysReturns = none)
    (hnd : ((results.filter fun r =>
        decide (r.ResultType = TaskRunResultType) && isPlainKey r.Key).map
          fun r => r.Key).Nodup) :
    VerifyTaskRunResults Sum256 range vc
      (results ++ signOutput Sum256 (GetIdentity tr) results) tr = none := by
  have hM := buildResultMap_signed Sum256 (GetIdentity tr) results
  have hnodup := buildResultMap_nodup (results ++ signOutput Sum256 (GetIdentity tr) results)
  have hplainM : ∀ key, isPlainKey key = true →
      (buildResultMap (results ++ signOutput Sum256 (GetIdentity tr) results)).get? key =
        (buildResultMap results).get? key := by
    intro key hkey
    unfold buildResultMap
    rw [List.foldl_append]
    apply resultMap_get?_other
    intro r hr _ e
    have := signOutput_keys_not_plain Sum256 (GetIdentity tr) results r hr
    rw [e, hkey] at this
    cases this
  have hkeys :
      (buildResultMap (results ++ signOutput Sum256 (GetIdentity tr) results)).keys.filter
          isPlainKey =
        (results.filter fun r =>
          decide (r.ResultType = TaskRunResultType) && isPlainKey r.Key).map fun r => r.Key := by
    unfold buildResultMap
    rw [List.foldl_append,
      resultMap_plainKeys_other _ _ (signOutput_keys_not_plain Sum256 (GetIdentity tr) results),
      resultMap_plainKeys results [] (by simpa [GoMap.keys] using hnd)]
    simp [GoMap.keys]
  unfold VerifyTaskRunResults
  simp only [hov, hal]
  generalize buildResultMap (results ++ signOutput Sum256 (GetIdentity tr) results) = M
    at hM hnodup hplainM hkeys ⊢
  have n1 : KeySVID ≠ KeyResultManifest ++ KeySignatureSuffix := by decide
  have n2 : KeySVID ≠ KeyResultManifest := by decide
  have n3 : KeyResultManifest ≠ KeyResultManifest ++ KeySignatureSuffix := by decide
  have hsvid : M.get? KeySVID =
      some { Key := KeySVID, Value := GetIdentity tr, ResultType := TaskRunResultType } := by
    rw [hM, GoMap.get?_set_ne _ _ _ n1, GoMap.get?_set_ne _ _ _ n2, resultMap_get?_other,
      GoMap.get?_set_self]
    intro r hr _ e
    simp only [List.mem_map] at hr
    obtain ⟨a, _, rfl⟩ := hr
    have h1 := HasSuffix_append a.Key KeySignatureSuffix
    have h2 : (sigField Sum256 (GetIdentity tr) a).Key = a.Key ++ KeySignatureSuffix := rfl
    rw [← h2, e] at h1
    revert h1
    decide
  have hman : M.get? KeyResultManifest =
      some { Key := KeyResultManifest, Value := getManifest results,
             ResultType := TaskRunResultType } := by
    rw [hM, GoMap.get?_set_ne _ _ _ n3, GoMap.get?_set_self]
  have hmansig : M.get? (KeyResultManifest ++ KeySignatureSuffix) =
      some { Key := KeyResultManifest ++ KeySignatureSuffix,
             Value := mockSign Sum256 (getManifest results) (GetIdentity tr),
             ResultType := TaskRunResultType } := by
    rw [hM, GoMap.get?_set_self]
  have hmanifest : verifyManifest M = none := by
    unfold verifyManifest
    rw [hman]
    simp only [hkeys]
    rw [if_pos]
    rfl
  have hfields : ∀ e ∈ M, fieldPasses Sum256 M (GetIdentity tr) e = true := by
    intro e he
    obtain ⟨key, r⟩ := e
    have hget := GoMap.get?_of_mem key r M hnodup he
    unfold fieldPasses
    by_cases h1 : HasSuffix key KeySignatureSuffix = true
    · simp [h1]
    · by_cases h2 : key = KeySVID
      · simp [h2]
      · by_cases h3 : key = KeyResultManifest
        · subst h3
          rw [hman] at hget
          injection hget with hget
          subst hget
          simp [hmansig, mockVerify]
        · have hp : isPlainKey key = true := by
            simp [isPlainKey, h1, h2, h3]
          rw [hplainM key hp] at hget
          have hfollow := sig_entries_follow Sum256 (GetIdentity tr) key results []
            (GoMap.set (buildResultMap results) KeySVID
              { Key := KeySVID, Value := GetIdentity tr, ResultType := TaskRunResultType })
            (by intro r0 hr0; simp [GoMap.get?] at hr0) r hget
          obtain ⟨sg, hsg, hval⟩ := hfollow
          have m1 : key ++ KeySignatureSuffix ≠ KeyResultManifest ++ KeySignatureSuffix :=
            fun e => h3 (str_append_right_cancel e)
          have m2 : key ++ KeySignatureSuffix ≠ KeyResultManifest := by
            intro e
            have h4 := HasSuffix_append key KeySignatureSuffix
            rw [e] at h4
            revert h4
            decide
          have hlook : M.get? (key ++ KeySignatureSuffix) = some sg := by
            rw [hM, GoMap.get?_set_ne _ _ _ m1, GoMap.get?_set_ne _ _ _ m2]
            exact hsg
          simp [hlook, hval, mockVerify]
  simp only [hsvid, hmanifest, ne_eq, not_true_eq_false, if_false]
  rw [verifyFields_none]
  intro e he
  exact hfields e ((range.perm M).mem_iff.1 he)

/-! ## Claims on the verification of task-run results -/

/-- C1 fails as stated: the field set returned by `Sign`, verified on its own, is rejected
with the manifest error: the plain results named by the manifest are not in it. -/
theorem verify_sign_output_alone_fails :
    (Sign checksumDigest exampleClient exampleResults).1 =
      .ok (signOutput checksumDigest "/ns/default/taskrun/build" exampleResults) ∧
    VerifyTaskRunResults checksumDigest MapRange.stored exampleClient
      (signOutput checksumDigest "/ns/default/taskrun/build" exampleResults)
      exampleTaskRun = some "ManifestMismatch" := by
  refine ⟨rfl, ?_⟩
  decide

/-- C1 as amended: with no override hooks set, for every list of result fields whose
plain-result keys are pairwise distinct and every task run `tr` whose identity is at the
head of `SignIdentities` and registered in `Entries`, `Sign` returns a field set, and
`VerifyTaskRunResults` applied to the input fields followed by that field set, and `tr`,
returns no error. -/
theorem sign_then_verify_with_results {σ : Type} (Sum256 : String → Digest)
    (range : MapRange) (sc vc : SpireMockClient σ) (results : List PipelineResourceResult)
    (tr : TaskRun σ) (rest : List String)
    (hsign : sc.SignOverride = none)
    (hov : vc.VerifyTaskRunResultsOverride = none) (hal : vc.VerifyAlwaysReturns = none)
    (hq : sc.SignIdentities = GetIdentity tr :: rest)
    (hentry : entryOf sc.Entries (GetIdentity tr) = true)
    (hnd : ((results.filter fun r =>
        decide (r.ResultType = TaskRunResultType) && isPlainKey r.Key).map
          fun r => r.Key).Nodup) :
    ∃ out, (Sign Sum256 sc results).1 = .ok out ∧
      VerifyTaskRunResults Sum256 range vc (results ++ out) tr = none := by
  refine ⟨signOutput Sum256 (GetIdentity tr) results, ?_, ?_⟩
  · rw [Sign_registered Sum256 sc results (GetIdentity tr) rest hsign hq hentry]
  · exact verify_signed_results Sum256 range vc results tr hov hal hnd

/-- C1 as amended, at a concrete input: the two example results, signed and verified by the
example client, the map visited in reverse order. -/
theorem sign_then_verify_with_results_witness :
    ∃ out, (Sign checksumDigest exampleClient exampleResults).1 = .ok out ∧
      VerifyTaskRunResults checksumDigest MapRange.reversed exampleClient
        (exampleResults ++ out) exampleTaskRun = none :=
  sign_then_verify_with_results checksumDigest MapRange.reversed exampleClient exampleClient
    exampleResults exampleTaskRun [] rfl rfl rfl rfl rfl (by decide)

/-- C3. With no override hooks set, if the field set contains a `TaskRunResultType` field
with key `k`, where `k` is not the identity key and does not end in the signature suffix,
but no `TaskRunResultType` field with key `k ++ ".sig"`, then `VerifyTaskRunResults` returns
an error, whatever the manifest, the identity, the other fields and the order in which the
map is visited are. -/
theorem missing_signature_rejected {σ : Type} (Sum256 : String → Digest) (range : MapRange)
    (sc : SpireMockClient σ) (prs : List PipelineResourceResult) (tr : TaskRun σ)
    (k : String)
    (hov : sc.VerifyTaskRunResultsOverride = none) (hal : sc.VerifyAlwaysReturns = none)
    (hk : ∃ r ∈ prs, r.ResultType = TaskRunResultType ∧ r.Key = k)
    (hsvid : k ≠ KeySVID) (hsfx : HasSuffix k KeySignatureSuffix = false)
    (hnosig : ∀ r ∈ prs, r.ResultType = TaskRunResultType →
      r.Key ≠ k ++ KeySignatureSuffix) :
    VerifyTaskRunResults Sum256 range sc prs tr ≠ none := by
  have hmem : k ∈ (buildResultMap prs).keys := resultMap_mem_keys k prs [] (Or.inr hk)
  have hsig : (buildResultMap prs).get? (k ++ KeySignatureSuffix) = none := by
    unfold buildResultMap
    rw [resultMap_get?_other _ prs [] hnosig]
    rfl
  unfold VerifyTaskRunResults
  simp only [hov, hal]
  generalize buildResultMap prs = M at hmem hsig
  cases verifyManifest M with
  | some err => simp
  | none =>
    simp only
    split
    · simp
    · intro hnone
      rw [verifyFields_none] at hnone
      simp only [GoMap.keys, List.mem_map] at hmem
      obtain ⟨e, he, hek⟩ := hmem
      have hpass := hnone e ((range.perm M).mem_iff.2 he)
      unfold fieldPasses at hpass
      rw [hek, hsig, hsfx] at hpass
      simp [hsvid] at hpass

/-- C3, at a concrete input: the signed example results with the field `foo.sig` removed. -/
theorem missing_signature_rejected_witness :
    VerifyTaskRunResults checksumDigest MapRange.stored exampleClient
      (exampleResults ++
        (signOutput checksumDigest "/ns/default/taskrun/build" exampleResults).filter
          fun r => decide (r.Key ≠ "foo.sig"))
      exampleTaskRun ≠ none :=
  missing_signature_rejected checksumDigest MapRange.stored exampleClient _ exampleTaskRun
    "foo" rfl rfl (by decide) (by decide) (by decide) (by decide)

/-! ## Tampering with a field value -/

theorem resultMap_map (f : PipelineResourceResult → PipelineResourceResult)
    (hf : ∀ r, (f r).Key = r.Key ∧ (f r).ResultType = r.ResultType) :
    ∀ (prs : List PipelineResourceResult) (m : GoMap PipelineResourceResult),
      (prs.map f).foldl resultMapStep (m.map fun e => (e.1, f e.2)) =
        (prs.foldl resultMapStep m).map fun e => (e.1, f e.2)
  | [], _ => rfl
  | r :: rs, m => by
    simp only [List.map_cons, List.foldl_cons]
    have hstep : resultMapStep (m.map fun e => (e.1, f e.2)) (f r) =
        (resultMapStep m r).map fun e => (e.1, f e.2) := by
      unfold resultMapStep
      rw [(hf r).1, (hf r).2]
      split
      · exact GoMap.set_map f r.Key r m
      · rfl
    rw [hstep]
    exact resultMap_map f hf rs _

theorem buildResultMap_replaceValue (k v : String) (prs : List PipelineResourceResult) :
    buildResultMap (replaceValue k v prs) =
      (buildResultMap prs).map fun e =>
        (e.1, if e.2.ResultType = TaskRunResultType ∧ e.2.Key = k then
          { e.2 with Value := v } else e.2) := by
  unfold buildResultMap replaceValue
  have h := resultMap_map
    (fun r => if r.ResultType = TaskRunResultType ∧ r.Key = k then { r with Value := v } else r)
    (by intro r; by_cases h : r.ResultType = TaskRunResultType ∧ r.Key = k <;> simp [h]) prs []
  simpa using h

/-- C2 as amended: with no override hooks set, for every field set that
`VerifyTaskRunResults` accepts for `tr` and every plain-result key `k` in it (held with the
field `r`), replacing the value of `k` by any value whose digest differs from the digest of
the signed value makes `VerifyTaskRunResults` fail with the field-signature error that names
exactly `k`, in whatever order the map is visited. -/
theorem field_tamper_detected {σ : Type} (Sum256 : String → Digest)
    (range range' : MapRange) (sc : SpireMockClient σ) (prs : List PipelineResourceResult)
    (tr : TaskRun σ) (k v : String) (r : PipelineResourceResult)
    (hov : sc.VerifyTaskRunResultsOverride = none) (hal : sc.VerifyAlwaysReturns = none)
    (hacc : VerifyTaskRunResults Sum256 range sc prs tr = none)
    (hk : (buildResultMap prs).get? k = some r)
    (hplain : isPlainKey k = true)
    (hdig : Sum256 v ≠ Sum256 r.Value) :
    VerifyTaskRunResults Sum256 range' sc (replaceValue k v prs) tr =
      some ("failed to verify field: " ++ k) := by
  have hM' := buildResultMap_replaceValue k v prs
  have hentries := buildResultMap_entries prs
  unfold VerifyTaskRunResults at hacc ⊢
  simp only [hov, hal] at hacc ⊢
  rw [hM']
  generalize buildResultMap prs = M at hacc hk hentries ⊢
  simp only [isPlainKey, Bool.and_eq_true, Bool.not_eq_true', decide_eq_true_eq] at hplain
  obtain ⟨⟨hsfx, hsvid⟩, hman⟩ := hplain
  have hfix : ∀ e ∈ M, e.1 ≠ k →
      (if e.2.ResultType = TaskRunResultType ∧ e.2.Key = k then
        { e.2 with Value := v } else e.2) = e.2 := by
    intro e he hne
    have h1 := (hentries e he).1
    rw [if_neg]
    rw [h1]
    exact fun h => hne h.2
  have hget : ∀ key, key ≠ k →
      GoMap.get? (M.map fun e =>
        (e.1, if e.2.ResultType = TaskRunResultType ∧ e.2.Key = k then
          { e.2 with Value := v } else e.2)) key = M.get? key := by
    intro key hne
    rw [GoMap.get?_map
      (fun x => if x.ResultType = TaskRunResultType ∧ x.Key = k then
        { x with Value := v } else x) key M]
    cases hg : M.get? key with
    | none => rfl
    | some x =>
      have := hfix (key, x) (GoMap.mem_of_get? key x M hg) hne
      simp only at this
      simp only [Option.map_some', this]
  have hkeys : GoMap.keys (M.map fun e =>
        (e.1, if e.2.ResultType = TaskRunResultType ∧ e.2.Key = k then
          { e.2 with Value := v } else e.2)) = M.keys := by
    simp [GoMap.keys, List.map_map, Function.comp_def]
  have hvm : verifyManifest (M.map fun e =>
        (e.1, if e.2.ResultType = TaskRunResultType ∧ e.2.Key = k then
          { e.2 with Value := v } else e.2)) = verifyManifest M := by
    unfold verifyManifest
    rw [hget KeyResultManifest (fun h => hman h.symm), hkeys]
  rw [hvm, hget KeySVID (fun h => hsvid h.symm)]
  cases hvmM : verifyManifest M with
  | some err =>
    rw [hvmM] at hacc
    simp at hacc
  | none =>
    rw [hvmM] at hacc
    simp only at hacc ⊢
    split at hacc
    · simp at hacc
    · rename_i hid
      rw [if_neg hid]
      rw [verifyFields_none] at hacc
      have hpassM : ∀ e ∈ M, fieldPasses Sum256 M
          (match M.get? KeySVID with
            | some p => p.Value
            | none => "") e = true :=
        fun e he => hacc e ((range.perm M).mem_iff.2 he)
      generalize (match M.get? KeySVID with
            | some p => p.Value
            | none => "") = identity at hpassM ⊢
      have hsigne : ∀ key : String, key ++ KeySignatureSuffix ≠ k := by
        intro key e
        have h1 := HasSuffix_append key KeySignatureSuffix
        rw [e, hsfx] at h1
        cases h1
      apply verifyFields_names
      · intro e he hne
        have he' := (range'.perm _).mem_iff.1 he
        simp only [List.mem_map] at he'
        obtain ⟨e0, he0, rfl⟩ := he'
        simp only at hne
        have h2 := hfix e0 he0 hne
        have h3 := hpassM e0 he0
        unfold fieldPasses at h3 ⊢
        simp only [h2]
        rw [hget _ (hsigne e0.1)]
        exact h3
      · have hmem := GoMap.mem_of_get? k r M hk
        have hr := hentries (k, r) hmem
        simp only at hr
        refine ⟨(k, { r with Value := v }), ?_, rfl, ?_⟩
        · apply (range'.perm _).mem_iff.2
          simp only [List.mem_map]
          refine ⟨(k, r), hmem, ?_⟩
          simp [hr.1, hr.2]
        · have h3 := hpassM (k, r) hmem
          unfold fieldPasses at h3 ⊢
          simp only [hsfx, hsvid, decide_False, Bool.or_self, Bool.false_or] at h3 ⊢
          rw [hget _ (hsigne k)]
          cases hsg : M.get? (k ++ KeySignatureSuffix) with
          | none => rfl
          | some sg =>
            rw [hsg] at h3
            simp only [mockVerify, decide_eq_true_eq] at h3
            simp only [mockVerify, h3, decide_eq_false_iff_not]
            rw [mockSign_eq_iff]
            exact fun h => hdig h.symm

/-- C2 as amended, at a concrete input: the value of `foo` in the signed example results is
replaced; the map is visited in reverse order. -/
theorem field_tamper_detected_witness :
    VerifyTaskRunResults checksumDigest MapRange.reversed exampleClient
      (replaceValue "foo" "tampered"
        (exampleResults ++
          signOutput checksumDigest "/ns/default/taskrun/build" exampleResults))
      exampleTaskRun = some "failed to verify field: foo" :=
  field_tamper_detected checksumDigest MapRange.stored MapRange.reversed exampleClient
    (exampleResults ++ signOutput checksumDigest "/ns/default/taskrun/build" exampleResults)
    exampleTaskRun "foo" "tampered"
    { Key := "foo", Value := "1", ResultType := TaskRunResultType }
    rfl rfl (by decide) (by decide) (by decide)
    (fun h => absurd (congrArg (fun d => (d 0).val) h) (by decide))

/-- The signed field set depends on the values of the results only through their digests. -/
theorem signOutput_single_congr (Sum256 : String → Digest) (identity key x y : String)
    (h : Sum256 x = Sum256 y) :
    signOutput Sum256 identity [{ Key := key, Value := x, ResultType := TaskRunResultType }] =
      signOutput Sum256 identity
        [{ Key := key, Value := y, ResultType := TaskRunResultType }] := by
  have hs : mockSign Sum256 x identity = mockSign Sum256 y identity :=
    (mockSign_eq_iff Sum256 x y identity).2 h
  have hm : getManifest [{ Key := key, Value := x, ResultType := TaskRunResultType }] =
      getManifest [{ Key := key, Value := y, ResultType := TaskRunResultType }] := by
    unfold getManifest
    congr 1
    by_cases hp : isPlainKey key = true <;> simp [List.filter_cons, hp]
  rw [signOutput_eq, signOutput_eq, hm]
  simp [sigField, hs]

/-- Whatever the digest function is, it maps infinitely many strings to finitely many
digests, so two different values have one digest; replacing one by the other in a signed
field set leaves every signature valid, and `VerifyTaskRunResults` accepts the set before
and after the replacement. -/
theorem colliding_value_accepted (Sum256 : String → Digest) :
    ∃ x y : String, x ≠ y ∧
      (buildResultMap
        ([{ Key := "a", Value := x, ResultType := TaskRunResultType }] ++
          signOutput Sum256 "/ns/default/taskrun/build"
            [{ Key := "a", Value := x, ResultType := TaskRunResultType }])).get? "a" =
        some { Key := "a", Value := x, ResultType := TaskRunResultType } ∧
      VerifyTaskRunResults Sum256 MapRange.stored exampleClient
        ([{ Key := "a", Value := x, ResultType := TaskRunResultType }] ++
          signOutput Sum256 "/ns/default/taskrun/build"
            [{ Key := "a", Value := x, ResultType := TaskRunResultType }])
        exampleTaskRun = none ∧
      VerifyTaskRunResults Sum256 MapRange.stored exampleClient
        (replaceValue "a" y
          ([{ Key := "a", Value := x, ResultType := TaskRunResultType }] ++
            signOutput Sum256 "/ns/default/taskrun/build"
              [{ Key := "a", Value := x, ResultType := TaskRunResultType }]))
        exampleTaskRun = none := by
  obtain ⟨x, y, hxy, hdig⟩ := Finite.exists_ne_map_eq_of_infinite Sum256
  have hplain : isPlainKey "a" = true := by decide
  have hnd : ∀ z : String,
      (([{ Key := "a", Value := z, ResultType := TaskRunResultType }] :
          List PipelineResourceResult).filter fun r =>
        decide (r.ResultType = TaskRunResultType) && isPlainKey r.Key).map
          (fun r => r.Key) |>.Nodup := by
    intro z
    simp [List.filter_cons, hplain]
  have hid : GetIdentity exampleTaskRun = "/ns/default/taskrun/build" := by decide
  have hacc := verify_signed_results Sum256 MapRange.stored exampleClient
    [{ Key := "a", Value := x, ResultType := TaskRunResultType }]
    exampleTaskRun
    rfl rfl (hnd x)
  have hacc' := verify_signed_results Sum256 MapRange.stored exampleClient
    [{ Key := "a", Value := y, ResultType := TaskRunResultType }]
    exampleTaskRun
    rfl rfl (hnd y)
  rw [hid] at hacc hacc'
  refine ⟨x, y, hxy, ?_, hacc, ?_⟩
  · unfold buildResultMap
    rw [List.foldl_append, resultMap_get?_other]
    · simp [resultMapStep, GoMap.set, GoMap.get?]
    · intro r hr _ e
      have := signOutput_keys_not_plain Sum256 "/ns/default/taskrun/build" _ r hr
      rw [e, hplain] at this
      cases this
  · have hrep : replaceValue "a" y
        ([{ Key := "a", Value := x, ResultType := TaskRunResultType }] ++
          signOutput Sum256 "/ns/default/taskrun/build"
            [{ Key := "a", Value := x, ResultType := TaskRunResultType }]) =
        [{ Key := "a", Value := y, ResultType := TaskRunResultType }] ++
          signOutput Sum256 "/ns/default/taskrun/build"
            [{ Key := "a", Value := y, ResultType := TaskRunResultType }] := by
      unfold replaceValue
      rw [List.map_append,
        ← signOutput_single_congr Sum256 "/ns/default/taskrun/build" "a" x y hdig]
      have hout : ∀ out : List PipelineResourceResult,
          (∀ r ∈ out, isPlainKey r.Key = false) →
          out.map (fun r =>
            if r.ResultType = TaskRunResultType ∧ r.Key = "a" then { r with Value := y }
            else r) = out := by
        intro out hall
        conv_rhs => rw [← List.map_id out]
        apply List.map_congr_left
        intro r hr
        have hne : ¬ r.Key = "a" := by
          intro e
          have := hall r hr
          rw [e, hplain] at this
          cases this
        simp [hne]
      rw [hout _ (signOutput_keys_not_plain Sum256 "/ns/default/taskrun/build" _)]
      rfl
    rw [hrep]
    exact hacc'

/-- C2 fails as stated. First, a key of a task-run result field may be a signature key or
the identity key: replacing the value of `foo.sig` in the signed example results makes the
verification fail with the error that names `foo`, not `foo.sig`, and replacing the value of
the identity key makes it fail with the identity error. Second, a different value with the
same digest keeps the signature valid, and two such values exist for every digest function:
no digest function makes the claim hold for every different value. -/
theorem field_tamper_claim_fails :
    VerifyTaskRunResults checksumDigest MapRange.stored exampleClient
      (exampleResults ++ signOutput checksumDigest "/ns/default/taskrun/build" exampleResults)
      exampleTaskRun = none ∧
    VerifyTaskRunResults checksumDigest MapRange.stored exampleClient
      (replaceValue "foo.sig" "tampered"
        (exampleResults ++
          signOutput checksumDigest "/ns/default/taskrun/build" exampleResults))
      exampleTaskRun = some "failed to verify field: foo" ∧
    VerifyTaskRunResults checksumDigest MapRange.stored exampleClient
      (replaceValue KeySVID "/ns/default/taskrun/other"
        (exampleResults ++
          signOutput checksumDigest "/ns/default/taskrun/build" exampleResults))
      exampleTaskRun = some "mock identity did not match" ∧
    ¬ ∃ Sum256 : String → Digest,
      ∀ (range range' : MapRange) (sc : SpireMockClient String)
        (prs : List PipelineResourceResult) (tr : TaskRun String) (k v : String)
        (r : PipelineResourceResult),
        sc.VerifyTaskRunResultsOverride = none → sc.VerifyAlwaysReturns = none →
        VerifyTaskRunResults Sum256 range sc prs tr = none →
        (buildResultMap prs).get? k = some r → isPlainKey k = true → v ≠ r.Value →
        VerifyTaskRunResults Sum256 range' sc (replaceValue k v prs) tr =
          some ("failed to verify field: " ++ k) := by
  refine ⟨by decide, by decide, by decide, ?_⟩
  rintro ⟨Sum256, hclaim⟩
  obtain ⟨x, y, hxy, hk, hacc, hacc'⟩ := colliding_value_accepted Sum256
  have h := hclaim MapRange.stored MapRange.stored exampleClient _
    exampleTaskRun
    "a" y _ rfl rfl hacc hk (by decide) (fun e => hxy e.symm)
  rw [hacc'] at h
  cases h

/-! ## The verdict of `VerifyTaskRunResults` -/

/-- With no override hooks set, `VerifyTaskRunResults` returns no error exactly when the
manifest check passes, the declared identity is the identity of the task run, and every
entry of the result map passes the field check; the order in which the map is visited does
not matter for the verdict. -/
theorem VerifyTaskRunResults_eq_none_iff {σ : Type} (Sum256 : String → Digest)
    (range : MapRange) (sc : SpireMockClient σ) (prs : List PipelineResourceResult)
    (tr : TaskRun σ)
    (hov : sc.VerifyTaskRunResultsOverride = none) (hal : sc.VerifyAlwaysReturns = none) :
    VerifyTaskRunResults Sum256 range sc prs tr = none ↔
      verifyManifest (buildResultMap prs) = none ∧
      (match (buildResultMap prs).get? KeySVID with
        | some p => p.Value
        | none => "") = GetIdentity tr ∧
      ∀ e ∈ buildResultMap prs, fieldPasses Sum256 (buildResultMap prs) (GetIdentity tr) e =
        true := by
  unfold VerifyTaskRunResults
  simp only [hov, hal]
  generalize buildResultMap prs = M
  cases verifyManifest M with
  | some err => simp
  | none =>
    simp only [true_and]
    by_cases hid : (match M.get? KeySVID with
        | some p => p.Value
        | none => "") = GetIdentity tr
    · rw [hid]
      simp only [ne_eq, not_true_eq_false, if_false, true_and]
      rw [verifyFields_none]
      constructor
      · intro h e he
        exact h e ((range.perm M).mem_iff.2 he)
      · intro h e he
        exact h e ((range.perm M).mem_iff.1 he)
    · simp [hid]

theorem GetIdentity_data {σ : Type} (tr : TaskRun σ) :
    (GetIdentity tr).data =
      "/ns/".data ++ (tr.Namespace.data ++ ("/taskrun/".data ++ tr.Name.data)) := by
  simp [GetIdentity, String.data_append, List.append_assoc]

theorem GetIdentity_ne_empty {σ : Type} (tr : TaskRun σ) : "" ≠ GetIdentity tr := by
  intro h
  have hd := congrArg String.data h
  rw [GetIdentity_data] at hd
  have hlen := congrArg List.length hd
  simp at hlen

/-! ## Claims on identity, manifest signature and hooks -/

/-- C11. With no override hooks set, for every field set that passes the manifest check and
whose declared identity field is absent or has a value different from `GetIdentity(tr)`,
`VerifyTaskRunResults` fails with the error "mock identity did not match", whatever the
field signatures are. -/
theorem identity_mismatch_rejected {σ : Type} (Sum256 : String → Digest) (range : MapRange)
    (sc : SpireMockClient σ) (prs : List PipelineResourceResult) (tr : TaskRun σ)
    (hov : sc.VerifyTaskRunResultsOverride = none) (hal : sc.VerifyAlwaysReturns = none)
    (hman : verifyManifest (buildResultMap prs) = none)
    (hid : (buildResultMap prs).get? KeySVID = none ∨
      ∃ p, (buildResultMap prs).get? KeySVID = some p ∧ p.Value ≠ GetIdentity tr) :
    VerifyTaskRunResults Sum256 range sc prs tr = some "mock identity did not match" := by
  unfold VerifyTaskRunResults
  simp only [hov, hal, hman]
  rcases hid with h | ⟨p, h, hp⟩
  · rw [h]
    simp only
    rw [if_pos (GetIdentity_ne_empty tr)]
  · rw [h]
    simp only
    rw [if_pos hp]

/-- C11, at a concrete input: the example results signed under another identity, so that
every field signature verifies under the declared identity. -/
theorem identity_mismatch_rejected_witness :
    VerifyTaskRunResults checksumDigest MapRange.stored exampleClient
      (exampleResults ++ signOutput checksumDigest "/ns/default/taskrun/other" exampleResults)
      exampleTaskRun = some "mock identity did not match" :=
  identity_mismatch_rejected checksumDigest MapRange.stored exampleClient _ exampleTaskRun
    rfl rfl (by decide)
    (Or.inr ⟨{ Key := KeySVID, Value := "/ns/default/taskrun/other",
               ResultType := TaskRunResultType }, by decide, by decide⟩)

/-- C12. With no override hooks set, for every field set whose result map holds a manifest
field and whose manifest-signature field is missing or has a value that is not
`mockSign(manifest value, declared identity)`, `VerifyTaskRunResults` returns an error. -/
theorem manifest_signature_enforced {σ : Type} (Sum256 : String → Digest) (range : MapRange)
    (sc : SpireMockClient σ) (prs : List PipelineResourceResult) (tr : TaskRun σ)
    (manifest : PipelineResourceResult)
    (hov : sc.VerifyTaskRunResultsOverride = none) (hal : sc.VerifyAlwaysReturns = none)
    (hman : (buildResultMap prs).get? KeyResultManifest = some manifest)
    (hsig : (buildResultMap prs).get? (KeyResultManifest ++ KeySignatureSuffix) = none ∨
      ∃ s, (buildResultMap prs).get? (KeyResultManifest ++ KeySignatureSuffix) = some s ∧
        s.Value ≠ mockSign Sum256 manifest.Value
          (match (buildResultMap prs).get? KeySVID with
            | some p => p.Value
            | none => "")) :
    VerifyTaskRunResults Sum256 range sc prs tr ≠ none := by
  intro hnone
  rw [VerifyTaskRunResults_eq_none_iff Sum256 range sc prs tr hov hal] at hnone
  obtain ⟨-, hid, hall⟩ := hnone
  have hpass := hall (KeyResultManifest, manifest)
    (GoMap.mem_of_get? KeyResultManifest manifest _ hman)
  rw [hid] at hsig
  unfold fieldPasses at hpass
  have h1 : HasSuffix KeyResultManifest KeySignatureSuffix = false := by decide
  have h2 : ¬ KeyResultManifest = KeySVID := by decide
  simp only [h1, h2, decide_False, Bool.or_self, Bool.false_or] at hpass
  rcases hsig with h | ⟨s, h, hs⟩
  · rw [h] at hpass
    cases hpass
  · rw [h] at hpass
    simp only [mockVerify, decide_eq_true_eq] at hpass
    exact hs hpass

/-- C12, at a concrete input: the signed example results with the manifest signature
replaced. -/
theorem manifest_signature_enforced_witness :
    VerifyTaskRunResults checksumDigest MapRange.stored exampleClient
      (replaceValue (KeyResultManifest ++ KeySignatureSuffix) "forged"
        (exampleResults ++
          signOutput checksumDigest "/ns/default/taskrun/build" exampleResults))
      exampleTaskRun ≠ none :=
  manifest_signature_enforced checksumDigest MapRange.stored exampleClient _ exampleTaskRun
    { Key := KeyResultManifest, Value := "bar,foo", ResultType := TaskRunResultType }
    rfl rfl (by decide)
    (Or.inr ⟨{ Key := KeyResultManifest ++ KeySignatureSuffix, Value := "forged",
               ResultType := TaskRunResultType }, by decide, by decide⟩)

/-- C13. With no override hooks set, `CheckSpireVerifiedFlag(tr)` is false exactly when the
status annotations contain the not-verified key, whatever its value; and in that case
`VerifyStatusInternalAnnotation` fails with the not-verified error, whatever the owner
marker, the status hash and the hash signature are. -/
theorem not_verified_marker_decisive {σ : Type} (Sum256 : String → Digest)
    (hashStatus : σ → Except String String) (sc : SpireMockClient σ) (tr : TaskRun σ)
    (hov : sc.VerifyStatusInternalAnnotationOverride = none)
    (hal : sc.VerifyAlwaysReturns = none)
    (hfl : sc.CheckSpireVerifiedFlagOverride = none) :
    (CheckSpireVerifiedFlag sc tr = false ↔
      ∃ v, (annotationsOf tr).get? NotVerifiedAnnotation = some v) ∧
    ((∃ v, (annotationsOf tr).get? NotVerifiedAnnotation = some v) →
      VerifyStatusInternalAnnotation Sum256 hashStatus sc tr =
        some "annotation tekton.dev/not-verified = yes. Failed spire verification.") := by
  have hflag : CheckSpireVerifiedFlag sc tr = false ↔
      ∃ v, (annotationsOf tr).get? NotVerifiedAnnotation = some v := by
    unfold CheckSpireVerifiedFlag
    rw [hfl]
    cases (annotationsOf tr).get? NotVerifiedAnnotation with
    | none => simp
    | some v => simp
  refine ⟨hflag, ?_⟩
  intro hv
  have hf := hflag.2 hv
  unfold VerifyStatusInternalAnnotation
  simp only [hov, hal, hf, Bool.not_false, if_true]

/-- C13, at a concrete input: the example task run correctly signed, then marked not
verified with an empty value. -/
theorem not_verified_marker_decisive_witness :
    VerifyStatusInternalAnnotation checksumDigest checksumStatus exampleClient
      { exampleTaskRun with
        Annotations := some
          (GoMap.set (annotationsOf
            ( AppendStatusInternalAnnotation checksumDigest checksumStatus exampleClient
              exampleTaskRun).2) NotVerifiedAnnotation "") } =
      some "annotation tekton.dev/not-verified = yes. Failed spire verification." :=
  (not_verified_marker_decisive checksumDigest checksumStatus exampleClient _ rfl rfl rfl).2
    ⟨"", by decide⟩

/-- C14. When the override function of a verify method is nil and `VerifyAlwaysReturns` is
set to `flag`, both `VerifyTaskRunResults` and `VerifyStatusInternalAnnotation` return nil
if `flag` is true and the error "failed to verify from mock VerifyAlwaysReturns" if it is
false, for every input; and setting the flag changes nothing in what `Sign`,
`AppendStatusInternalAnnotation` and `CheckSpireVerifiedFlag` return. -/
theorem VerifyAlwaysReturns_forces_verdict {σ : Type} (Sum256 : String → Digest)
    (hashStatus : σ → Except String String) (range : MapRange) (sc : SpireMockClient σ)
    (flag : Bool) (hflag : sc.VerifyAlwaysReturns = some flag) :
    (sc.VerifyTaskRunResultsOverride = none →
      ∀ prs tr, VerifyTaskRunResults Sum256 range sc prs tr =
        if flag = true then none else some "failed to verify from mock VerifyAlwaysReturns") ∧
    (sc.VerifyStatusInternalAnnotationOverride = none →
      ∀ tr, VerifyStatusInternalAnnotation Sum256 hashStatus sc tr =
        if flag = true then none else some "failed to verify from mock VerifyAlwaysReturns") ∧
    (∀ results, (Sign Sum256 sc results).1 =
        (Sign Sum256 { sc with VerifyAlwaysReturns := none } results).1 ∧
      (Sign Sum256 sc results).2.SignIdentities =
        (Sign Sum256 { sc with VerifyAlwaysReturns := none } results).2.SignIdentities ∧
      (Sign Sum256 sc results).2.Entries =
        (Sign Sum256 { sc with VerifyAlwaysReturns := none } results).2.Entries) ∧
    (∀ tr, AppendStatusInternalAnnotation Sum256 hashStatus sc tr =
      AppendStatusInternalAnnotation Sum256 hashStatus
        { sc with VerifyAlwaysReturns := none } tr) ∧
    (∀ tr, CheckSpireVerifiedFlag sc tr =
      CheckSpireVerifiedFlag { sc with VerifyAlwaysReturns := none } tr) := by
  refine ⟨?_, ?_, ?_, ?_, ?_⟩
  · intro hov prs tr
    unfold VerifyTaskRunResults
    rw [hov, hflag]
    cases flag <;> rfl
  · intro hov tr
    unfold VerifyStatusInternalAnnotation
    rw [hov, hflag]
    cases flag <;> rfl
  · intro results
    obtain ⟨entries, queue, always, o1, o2, o3, o4, signOverride⟩ := sc
    cases signOverride with
    | some f => exact ⟨rfl, rfl, rfl⟩
    | none =>
      cases queue with
      | nil => exact ⟨rfl, rfl, rfl⟩
      | cons identity rest =>
        unfold Sign
        simp only
        cases entryOf entries identity <;> exact ⟨rfl, rfl, rfl⟩
  · intro tr
    rfl
  · intro tr
    rfl

/-- C14, at a concrete input: the flag set to false on the example client, and a correctly
signed field set. -/
theorem VerifyAlwaysReturns_forces_verdict_witness :
    VerifyTaskRunResults checksumDigest MapRange.stored
      { exampleClient with VerifyAlwaysReturns := some false }
      (exampleResults ++ signOutput checksumDigest "/ns/default/taskrun/build" exampleResults)
      exampleTaskRun = some "failed to verify from mock VerifyAlwaysReturns" :=
  (VerifyAlwaysReturns_forces_verdict checksumDigest checksumStatus MapRange.stored
    { exampleClient with VerifyAlwaysReturns := some false } false rfl).1 rfl _ _

/-- C16. With `SignOverride` nil and a non-empty identity queue, one call of `Sign` signs
under the head of the queue when the head is registered and fails with the "entry doesn't
exist" error for the head when it is not; in both cases it leaves `SignIdentities` equal to
the tail of the queue and every other field of the client, `Entries` included, unchanged. -/
theorem Sign_pops_head {σ : Type} (Sum256 : String → Digest) (sc : SpireMockClient σ)
    (results : List PipelineResourceResult) (identity : String) (rest : List String)
    (hov : sc.SignOverride = none) (hq : sc.SignIdentities = identity :: rest) :
    (Sign Sum256 sc results).2 = { sc with SignIdentities := rest } ∧
    (Sign Sum256 sc results).2.SignIdentities = rest ∧
    (Sign Sum256 sc results).2.Entries = sc.Entries ∧
    (entryOf sc.Entries identity = true →
      (Sign Sum256 sc results).1 = .ok (signOutput Sum256 identity results)) ∧
    (entryOf sc.Entries identity = false →
      (Sign Sum256 sc results).1 =
        .error ("entry doesn't exist for identity: " ++ identity)) := by
  cases hentry : entryOf sc.Entries identity with
  | true =>
    rw [Sign_registered Sum256 sc results identity rest hov hq hentry]
    exact ⟨rfl, rfl, rfl, fun _ => rfl, fun h => Bool.noConfusion h⟩
  | false =>
    rw [Sign_unregistered Sum256 sc results identity rest hov hq hentry]
    exact ⟨rfl, rfl, rfl, fun h => Bool.noConfusion h, fun _ => rfl⟩

/-- C16, at a concrete input: a queue of two identities of which the head is not
registered; the failed call consumes the head. -/
theorem Sign_pops_head_witness :
    (Sign checksumDigest
      ({ Entries := some [("/ns/default/taskrun/build", true)],
         SignIdentities := ["/ns/default/taskrun/other", "/ns/default/taskrun/build"] } :
        SpireMockClient String) exampleResults).2.SignIdentities =
      ["/ns/default/taskrun/build"] :=
  (Sign_pops_head checksumDigest _ exampleResults "/ns/default/taskrun/other"
    ["/ns/default/taskrun/build"] rfl rfl).2.1

/-- C18. For all contents `c` and identities `a`, `b`, whatever characters they contain, and
every digest function, `mockVerify(c, mockSign(c, a), b)` holds if and only if `a = b`. -/
theorem mockVerify_binds_signer (Sum256 : String → Digest) (c a b : String) :
    mockVerify Sum256 c (mockSign Sum256 c a) b = true ↔ a = b := by
  unfold mockVerify mockSign
  rw [decide_eq_true_iff]
  constructor
  · intro h
    exact str_append_left_cancel (str_append_right_cancel (str_append_right_cancel h))
  · intro h
    rw [h]

/-! ## Claims on identities -/

/-- Two lists that agree after a first occurrence of `c` agree part by part. -/
theorem split_at_first (c : Char) : ∀ (l1 l2 r1 r2 : List Char),
    c ∉ l1 → c ∉ l2 → l1 ++ c :: r1 = l2 ++ c :: r2 → l1 = l2 ∧ r1 = r2
  | [], [], _, _, _, _, h => by
    simp only [List.nil_append, List.cons.injEq, true_and] at h
    exact ⟨rfl, h⟩
  | [], b :: l2, _, _, _, h2, h => by
    simp only [List.nil_append, List.cons_append, List.cons.injEq] at h
    exact absurd (h.1 ▸ List.mem_cons_self _ _) h2
  | a :: l1, [], _, _, h1, _, h => by
    simp only [List.nil_append, List.cons_append, List.cons.injEq] at h
    exact absurd (h.1 ▸ List.mem_cons_self _ _) h1
  | a :: l1, b :: l2, r1, r2, h1, h2, h => by
    simp only [List.cons_append, List.cons.injEq] at h
    have ih := split_at_first c l1 l2 r1 r2
      (fun hm => h1 (List.mem_cons_of_mem _ hm)) (fun hm => h2 (List.mem_cons_of_mem _ hm)) h.2
    exact ⟨by rw [h.1, ih.1], ih.2⟩

theorem GetIdentity_inj_of_no_slash {σ : Type} (tr1 tr2 : TaskRun σ)
    (h1 : '/' ∉ tr1.Namespace.data) (h2 : '/' ∉ tr2.Namespace.data)
    (h : GetIdentity tr1 = GetIdentity tr2) :
    tr1.Namespace = tr2.Namespace ∧ tr1.Name = tr2.Name := by
  have hd := congrArg String.data h
  rw [GetIdentity_data, GetIdentity_data] at hd
  have hd2 := List.append_cancel_left hd
  have hd3 : tr1.Namespace.data ++ '/' :: ("taskrun/".data ++ tr1.Name.data) =
      tr2.Namespace.data ++ '/' :: ("taskrun/".data ++ tr2.Name.data) := hd2
  obtain ⟨e1, e2⟩ := split_at_first '/' _ _ _ _ h1 h2 hd3
  exact ⟨String.ext e1, String.ext (List.append_cancel_left e2)⟩

/-- C15 fails as stated: a slash in the namespace or in the name moves the boundary between
the two; the two example task runs differ in namespace and name and have one identity, and
the entry created for the first lets `Sign` sign under the identity of the second. -/
theorem GetIdentity_not_injective :
    GetIdentity slashNamespaceTaskRun = GetIdentity slashNameTaskRun ∧
    slashNamespaceTaskRun.Namespace ≠ slashNameTaskRun.Namespace ∧
    slashNamespaceTaskRun.Name ≠ slashNameTaskRun.Name ∧
    (Sign checksumDigest
      { (CreateEntries ({} : SpireMockClient String) slashNamespaceTaskRun).2 with
        SignIdentities := [GetIdentity slashNameTaskRun] } exampleResults).1 =
      .ok (signOutput checksumDigest (GetIdentity slashNameTaskRun) exampleResults) := by
  refine ⟨by decide, by decide, by decide, ?_⟩
  rfl

/-- C15 as amended: on task runs whose namespace contains no slash (as Kubernetes namespaces
do not), `GetIdentity` determines the namespace and the name; so for such task runs an entry
that `CreateEntries` adds for one of them registers the identity of no different one. -/
theorem GetIdentity_injective_without_slash {σ : Type} (tr1 tr2 : TaskRun σ)
    (h1 : '/' ∉ tr1.Namespace.data) (h2 : '/' ∉ tr2.Namespace.data) :
    (GetIdentity tr1 = GetIdentity tr2 →
      tr1.Namespace = tr2.Namespace ∧ tr1.Name = tr2.Name) ∧
    (∀ sc : SpireMockClient σ, entryOf sc.Entries (GetIdentity tr2) = false →
      entryOf (CreateEntries sc tr1).2.Entries (GetIdentity tr2) = true →
      tr1.Namespace = tr2.Namespace ∧ tr1.Name = tr2.Name) := by
  refine ⟨GetIdentity_inj_of_no_slash tr1 tr2 h1 h2, ?_⟩
  intro sc hbefore hafter
  apply GetIdentity_inj_of_no_slash tr1 tr2 h1 h2
  by_contra hne
  have hset : ∀ m : GoMap Bool,
      (GoMap.set m (GetIdentity tr1) true).get? (GetIdentity tr2) = m.get? (GetIdentity tr2) :=
    fun m => GoMap.get?_set_ne _ _ _ (fun e => hne e.symm) m
  unfold CreateEntries at hafter
  simp only [entryOf] at hafter hbefore
  change Option.getD (GoMap.get? (GoMap.set _ (GetIdentity tr1) true) (GetIdentity tr2))
    false = true at hafter
  rw [hset] at hafter
  cases hE : sc.Entries with
  | none =>
    rw [hE] at hafter
    simp [GoMap.get?] at hafter
  | some m =>
    rw [hE] at hafter hbefore
    simp only at hafter hbefore
    rw [hbefore] at hafter
    cases hafter

/-- C15 as amended, at a concrete input: the example task run and a task run of the same
name in another namespace have different identities. -/
theorem GetIdentity_injective_without_slash_witness :
    GetIdentity exampleTaskRun ≠ GetIdentity { exampleTaskRun with Namespace := "other" } :=
  fun h => absurd
    ((GetIdentity_injective_without_slash exampleTaskRun
      { exampleTaskRun with Namespace := "other" } (by decide) (by decide)).1 h).1
    (by decide)

/-! ## Claims on the combined field set -/

/-- C17. With no override hooks set, for every non-empty list of `TaskRunResultType` results
with pairwise distinct keys, none of which is the identity key, the manifest key or ends in
the signature suffix, and every task run `tr` whose identity is at the head of
`SignIdentities` and registered in `Entries`, `Sign` returns a field set and
`VerifyTaskRunResults` applied to the results followed by that field set returns no error. -/
theorem sign_then_verify_combined {σ : Type} (Sum256 : String → Digest) (range : MapRange)
    (sc : SpireMockClient σ) (results : List PipelineResourceResult) (tr : TaskRun σ)
    (rest : List String)
    (hsign : sc.SignOverride = none)
    (hov : sc.VerifyTaskRunResultsOverride = none) (hal : sc.VerifyAlwaysReturns = none)
    (hq : sc.SignIdentities = GetIdentity tr :: rest)
    (hentry : entryOf sc.Entries (GetIdentity tr) = true)
    (_hne : results ≠ [])
    (htype : ∀ r ∈ results, r.ResultType = TaskRunResultType)
    (hdistinct : (results.map fun r => r.Key).Nodup)
    (hkeys : ∀ r ∈ results, r.Key ≠ KeySVID ∧ r.Key ≠ KeyResultManifest ∧
      HasSuffix r.Key KeySignatureSuffix = false) :
    ∃ out, (Sign Sum256 sc results).1 = .ok out ∧
      VerifyTaskRunResults Sum256 range sc (results ++ out) tr = none ∧
      VerifyTaskRunResults Sum256 range (Sign Sum256 sc results).2 (results ++ out) tr =
        none := by
  have hfilter : (results.filter fun r =>
      decide (r.ResultType = TaskRunResultType) && isPlainKey r.Key) = results := by
    apply List.filter_eq_self.2
    intro r hr
    have h1 := htype r hr
    obtain ⟨h2, h3, h4⟩ := hkeys r hr
    simp [isPlainKey, h1, h2, h3, h4]
  have hnd : ((results.filter fun r =>
      decide (r.ResultType = TaskRunResultType) && isPlainKey r.Key).map
        fun r => r.Key).Nodup := by
    rw [hfilter]
    exact hdistinct
  rw [Sign_registered Sum256 sc results (GetIdentity tr) rest hsign hq hentry]
  exact ⟨signOutput Sum256 (GetIdentity tr) results, rfl,
    verify_signed_results Sum256 range sc results tr hov hal hnd,
    verify_signed_results Sum256 range _ results tr hov hal hnd⟩

/-- C17, at a concrete input: the two example results and the example client. -/
theorem sign_then_verify_combined_witness :
    ∃ out, (Sign checksumDigest exampleClient exampleResults).1 = .ok out ∧
      VerifyTaskRunResults checksumDigest MapRange.stored exampleClient
        (exampleResults ++ out) exampleTaskRun = none ∧
      VerifyTaskRunResults checksumDigest MapRange.stored
        (Sign checksumDigest exampleClient exampleResults).2
        (exampleResults ++ out) exampleTaskRun = none :=
  sign_then_verify_combined checksumDigest MapRange.stored exampleClient exampleResults
    exampleTaskRun [] rfl rfl rfl rfl rfl (by decide) (by decide) (by decide) (by decide)

/-- The result map is built from the `TaskRunResultType` entries alone. -/
theorem resultMap_filter : ∀ (prs : List PipelineResourceResult)
    (m : GoMap PipelineResourceResult),
      prs.foldl resultMapStep m =
        (prs.filter fun r => decide (r.ResultType = TaskRunResultType)).foldl resultMapStep m
  | [], _ => rfl
  | r :: rs, m => by
    by_cases hr : r.ResultType = TaskRunResultType
    · simp only [List.foldl_cons, List.filter_cons, hr, decide_True, if_true]
      exact resultMap_filter rs _
    · have hstep : resultMapStep m r = m := by
        unfold resultMapStep
        rw [if_neg hr]
      simp only [List.foldl_cons, List.filter_cons, hr, decide_False, Bool.false_eq_true,
        if_false, hstep]
      exact resultMap_filter rs m

/-- C19. With no override hooks set, for every two field lists that have the same
`TaskRunResultType` entries in the same order, whatever their entries of other types are,
`VerifyTaskRunResults` returns the same verdict for the same task run: both nil or both an
error, in whatever order each call visits the map, and the same error when both calls visit
the map in the same order. -/
theorem only_task_run_results_matter {σ : Type} (Sum256 : String → Digest)
    (range1 range2 : MapRange) (sc : SpireMockClient σ)
    (prs1 prs2 : List PipelineResourceResult) (tr : TaskRun σ)
    (hov : sc.VerifyTaskRunResultsOverride = none) (hal : sc.VerifyAlwaysReturns = none)
    (hsame : (prs1.filter fun r => decide (r.ResultType = TaskRunResultType)) =
      prs2.filter fun r => decide (r.ResultType = TaskRunResultType)) :
    (VerifyTaskRunResults Sum256 range1 sc prs1 tr = none ↔
      VerifyTaskRunResults Sum256 range2 sc prs2 tr = none) ∧
    VerifyTaskRunResults Sum256 range1 sc prs1 tr =
      VerifyTaskRunResults Sum256 range1 sc prs2 tr := by
  have hmap : buildResultMap prs1 = buildResultMap prs2 := by
    unfold buildResultMap
    rw [resultMap_filter prs1, resultMap_filter prs2, hsame]
  constructor
  · rw [VerifyTaskRunResults_eq_none_iff Sum256 range1 sc prs1 tr hov hal,
      VerifyTaskRunResults_eq_none_iff Sum256 range2 sc prs2 tr hov hal, hmap]
  · unfold VerifyTaskRunResults
    simp only [hov, hal, hmap]

/-- C19, at a concrete input: the signed example results with and without an entry of
another result type that reuses the key `foo`. -/
theorem only_task_run_results_matter_witness :
    VerifyTaskRunResults checksumDigest MapRange.stored exampleClient
      (exampleResults ++ signOutput checksumDigest "/ns/default/taskrun/build" exampleResults)
      exampleTaskRun =
    VerifyTaskRunResults checksumDigest MapRange.stored exampleClient
      (exampleResults ++ signOutput checksumDigest "/ns/default/taskrun/build" exampleResults
        ++ [{ Key := "foo", Value := "3", ResultType := 2 }])
      exampleTaskRun :=
  (only_task_run_results_matter checksumDigest MapRange.stored MapRange.reversed
    exampleClient _ _ exampleTaskRun rfl rfl (by decide)).2

end Spire
